import Mathlib

/-!
Shallow embedding of the Distributed-Grid-Based-Game repository
(src/schema.py, src/utils.py, src/service.py, src/src/models.py, src/router.py).

The relational store is modelled as lists of rows (`DB`).  Each service
method runs inside one transaction (`with self._sf() as s, s.begin():` in
src/service.py); SQLAlchemy's `begin()` context manager commits on normal
exit and rolls back on an exception, so a method is embedded as a function
`DB -> Except HTTPError (result, DB)`: an `Except.error` outcome means the
transaction aborted and the committed state is the caller's original `DB`.
Wall-clock timestamps (`datetime.now`) are modelled by an explicit `now`
parameter.  SQL floats/averages are modelled as rationals.
-/

namespace GridGame

/-- src/schema.py `GameStatus`. -/
inductive GameStatus where
  | waiting
  | in_progress
  | finished
deriving DecidableEq, Repr

/-- src/schema.py `User` row. -/
structure UserRow where
  id : Nat
  name : String
deriving DecidableEq, Repr

/-- src/schema.py `Game` row.  `started_at` / `completed_at` are `some now`
once the service assigned them (the column default only matters before any
assignment and is irrelevant to the claims). -/
structure GameRow where
  id : Nat
  status : GameStatus
  winner_id : Option Nat
  turn_no : Nat
  started_at : Option Nat
  completed_at : Option Nat
deriving DecidableEq, Repr

/-- src/schema.py `Player` row (a seat). -/
structure PlayerRow where
  id : Nat
  game_id : Nat
  user_id : Nat
  player_order : Nat
deriving DecidableEq, Repr

/-- src/schema.py `Move` row. -/
structure MoveRow where
  id : Nat
  game_id : Nat
  user_id : Nat
  row : Nat
  col : Nat
  move_no : Nat
deriving DecidableEq, Repr

/-- The relational store: one list per table, plus the autoincrement
counters for primary keys. -/
structure DB where
  users : List UserRow
  games : List GameRow
  players : List PlayerRow
  moves : List MoveRow
  next_user_id : Nat
  next_game_id : Nat
  next_player_id : Nat
  next_move_id : Nat
deriving DecidableEq, Repr

/-- The empty store (fresh database; sqlite autoincrement starts at 1). -/
def DB.empty : DB := ⟨[], [], [], [], 1, 1, 1, 1⟩

/-- `s.get(Game, game_id)`. -/
def DB.getGame (db : DB) (gid : Nat) : Option GameRow :=
  db.games.find? (fun g => decide (g.id = gid))

/-- `s.get(User, user_id)`. -/
def DB.getUser (db : DB) (uid : Nat) : Option UserRow :=
  db.users.find? (fun u => decide (u.id = uid))

/-- The `game.players` relationship: all seats of a game. -/
def DB.gamePlayers (db : DB) (gid : Nat) : List PlayerRow :=
  db.players.filter (fun p => decide (p.game_id = gid))

/-- All moves of a game (the rows matched by
`select(Move).where(Move.game_id == game.id)`). -/
def DB.gameMoves (db : DB) (gid : Nat) : List MoveRow :=
  db.moves.filter (fun m => decide (m.game_id = gid))

/-- ORM attribute assignment on a loaded `Game` object, flushed back to the
row with that primary key. -/
def DB.updateGame (db : DB) (gid : Nat) (f : GameRow → GameRow) : DB :=
  { db with games := db.games.map (fun g => if g.id = gid then f g else g) }

/-- src/schema.py `HTTPException(status, detail)` from fastapi. -/
structure HTTPError where
  status_code : Nat
  detail : String
deriving DecidableEq, Repr

/-- Result of one request transaction: `Except.error` means the transaction
was rolled back and nothing was committed. -/
abbrev Res (α : Type) := Except HTTPError α

deriving instance DecidableEq for Except

/-! ### src/utils.py -/

/-- src/utils.py `VICTORY_CONDITIONS`: 3 rows, 3 columns, 2 diagonals. -/
def VICTORY_CONDITIONS : List (List (Nat × Nat)) :=
  [ [(0, 0), (0, 1), (0, 2)],
    [(1, 0), (1, 1), (1, 2)],
    [(2, 0), (2, 1), (2, 2)],
    [(0, 0), (1, 0), (2, 0)],
    [(0, 1), (1, 1), (2, 1)],
    [(0, 2), (1, 2), (2, 2)],
    [(0, 0), (1, 1), (2, 2)],
    [(0, 2), (1, 1), (2, 0)] ]

/-- A board is a list of rows of optional user ids, as in
`construct_board`. -/
abbrev Board := List (List (Option Nat))

/-- `[[None]*3]*3`: the 3x3 board of empty cells. -/
def emptyBoard : Board :=
  [[none, none, none], [none, none, none], [none, none, none]]

/-- Python `board[r][c] = v`: in-range assignment updates the cell, an
out-of-range index raises `IndexError`.  (Indices are `Nat` here because
every caller in scope has passed the request validation `0 <= row <= 2`,
so Python's negative-index wraparound is unreachable.) -/
def setCell (b : Board) (r c : Nat) (v : Option Nat) : Except String Board :=
  if hr : r < b.length then
    if c < (b.get ⟨r, hr⟩).length then
      Except.ok (b.set r ((b.get ⟨r, hr⟩).set c v))
    else Except.error "IndexError"
  else Except.error "IndexError"

/-- src/utils.py `construct_board`: fold the moves over the empty board,
writing `board[move.row][move.col] = move.user_id`. -/
def construct_board (moves : List MoveRow) : Except String Board :=
  moves.foldlM (fun b m => setCell b m.row m.col (some m.user_id)) emptyBoard

/-- Python `board[row][col]` for the in-range reads done by
`find_winner` (all fixed coordinates are 0, 1 or 2 and every board it is
applied to is 3x3). -/
def cellAt (b : Board) (rc : Nat × Nat) : Option Nat :=
  (b.getD rc.1 []).getD rc.2 none

/-- `ids = [board[row][col] for row, col in condition]`. -/
def tripleIds (b : Board) (cond : List (Nat × Nat)) : List (Option Nat) :=
  cond.map (fun rc => cellAt b rc)

/-- `ids[0] is not None and ids.count(ids[0]) == 3`. -/
def tripleWins (b : Board) (cond : List (Nat × Nat)) : Bool :=
  match tripleIds b cond with
  | [] => false
  | x :: xs => x.isSome && (x :: xs).count x == 3

/-- src/utils.py `find_winner`: return `ids[0]` of the first victory
condition whose three cells hold the same non-empty user id. -/
def find_winner (b : Board) : Option Nat :=
  match VICTORY_CONDITIONS.find? (fun cond => tripleWins b cond) with
  | some cond => (tripleIds b cond).headD none
  | none => none

/-- src/utils.py the dictionary
`{player.player_order: player.user_id for player in game.players}`
looked up at `order`; with duplicate keys the last binding wins. -/
def orderDictGet (ps : List PlayerRow) (o : Nat) : Option Nat :=
  (ps.reverse.find? (fun p => decide (p.player_order = o))).map (fun p => p.user_id)

/-- src/utils.py `next_player`. -/
def next_player (db : DB) (g : GameRow) : Option Nat :=
  if g.status ≠ GameStatus.in_progress then none
  else orderDictGet (db.gamePlayers g.id) (g.turn_no % 2)

/-- `select(Move).where(Move.game_id == game.id).order_by(Move.move_no)`
(a stable sort by `move_no`). -/
def DB.orderedMoves (db : DB) (gid : Nat) : List MoveRow :=
  (db.gameMoves gid).insertionSort (fun a b => a.move_no ≤ b.move_no)

/-! ### src/service.py -/

/-- src/service.py `Service.create_user`. -/
def create_user (db : DB) (name : String) : Res (Nat × DB) :=
  let uid := db.next_user_id
  Except.ok (uid,
    { db with users := db.users ++ [⟨uid, name⟩], next_user_id := uid + 1 })

/-- src/service.py `Service.create_game`: validates the creator, inserts a
Waiting game and seats the creator at `player_order = 0`. -/
def create_game (db : DB) (creator_user_id : Nat) : Res (Nat × DB) :=
  match db.getUser creator_user_id with
  | none => Except.error ⟨404, "User not found"⟩
  | some _ =>
    let gid := db.next_game_id
    let pid := db.next_player_id
    Except.ok (gid,
      { db with
        games := db.games ++ [⟨gid, GameStatus.waiting, none, 0, none, none⟩],
        players := db.players ++ [⟨pid, gid, creator_user_id, 0⟩],
        next_game_id := gid + 1,
        next_player_id := pid + 1 })

/-- The store-level uniqueness constraints on `players`
(src/schema.py `Player.__table_args__`: `unique_game_user` and
`unique_game_player_slot`), checked when the INSERT is flushed. -/
def playerInsertViolation (db : DB) (p : PlayerRow) : Bool :=
  db.players.any (fun q =>
    decide (q.game_id = p.game_id) &&
      (decide (q.user_id = p.user_id) || decide (q.player_order = p.player_order)))

/-- src/service.py `Service.join_game`.  NOTE (faithful to the source): the
"already in game" check at line 95 compares `user_id` against the Player
row primary keys (`player.id`), not against the seated user ids; a
duplicate join that slips past it is still rejected by the store's
`unique_game_user` constraint when the INSERT is flushed. -/
def join_game (db : DB) (gid : Nat) (uid : Nat) (now : Nat) : Res DB :=
  match db.getGame gid with
  | none => Except.error ⟨404, "Game not found"⟩
  | some game =>
    if game.status ≠ GameStatus.waiting then
      Except.error ⟨400, "Cannot join: Game has started"⟩
    else if (db.getUser uid).isNone then Except.error ⟨404, "User not found"⟩
    else
      let ps := db.gamePlayers gid
      if ps.any (fun p => decide (p.id = uid)) then
        Except.error ⟨400, "User already in game"⟩
      else if ps.length ≥ 2 then
        Except.error ⟨400, "A game can only have up to 2 players"⟩
      else
        let order := if ps.any (fun p => decide (p.player_order = 0)) then 1 else 0
        let newP : PlayerRow := ⟨db.next_player_id, gid, uid, order⟩
        if playerInsertViolation db newP then Except.error ⟨500, "IntegrityError"⟩
        else
          let db1 : DB :=
            { db with players := db.players ++ [newP],
                      next_player_id := db.next_player_id + 1 }
          if ps.length + 1 = 2 then
            Except.ok (db1.updateGame gid (fun g =>
              { g with status := GameStatus.in_progress, started_at := some now }))
          else
            Except.ok db1

/-- The number of rows matched by the conditional UPDATE
`update(Game).where(Game.id == game_id, Game.turn_no == expected_turn)`
(`result.rowcount` at src/service.py line 150). -/
def claimTurnRowcount (db : DB) (gid : Nat) (t : Nat) : Nat :=
  (db.games.filter (fun g => decide (g.id = gid) && decide (g.turn_no = t))).length

/-- The atomic compare-and-increment of src/service.py lines 143-149:
`SET turn_no = turn_no + 1 WHERE id == game_id AND turn_no == expected_turn`,
returning the affected row count together with the updated store. -/
def claimTurn (db : DB) (gid : Nat) (t : Nat) : Nat × DB :=
  (claimTurnRowcount db gid t,
    { db with games := db.games.map (fun g =>
        if g.id = gid ∧ g.turn_no = t then { g with turn_no := g.turn_no + 1 } else g) })

/-- The compensation write of src/service.py lines 163-167, exactly as
written there: `SET turn_no = expected_turn WHERE id == game_id AND
turn_no == expected_turn`. -/
def revertTurn (db : DB) (gid : Nat) (t : Nat) : DB :=
  { db with games := db.games.map (fun g =>
      if g.id = gid ∧ g.turn_no = t then { g with turn_no := t } else g) }

/-- The store-level uniqueness constraints on `moves`
(src/schema.py `Move.__table_args__`: `unique_cell` and
`unique_move_number`), checked when the INSERT is flushed. -/
def moveInsertViolation (db : DB) (m : MoveRow) : Bool :=
  db.moves.any (fun q =>
    decide (q.game_id = m.game_id) &&
      ((decide (q.row = m.row) && decide (q.col = m.col)) ||
        decide (q.move_no = m.move_no)))

/-- src/service.py lines 143-200 of `Service.move`: everything after the
guards, parameterised by the `expected_turn` value the guards read.  This
is the Turn Arbitrator: the conditional UPDATE, the Conflict branch, the
occupied-cell check with its compensation write, the Move INSERT, board
reconstruction and the terminal transition. -/
def submitClaimed (db : DB) (gid uid row col expected_turn now : Nat) : Res DB :=
  let rowcount := (claimTurn db gid expected_turn).1
  let db1 := (claimTurn db gid expected_turn).2
  if rowcount ≠ 1 then Except.error ⟨400, "Concurrent moves, try again"⟩
  else
    let move_no := expected_turn + 1
    let cell_occupied := (db1.moves.filter (fun m =>
      decide (m.game_id = gid) && decide (m.row = row) && decide (m.col = col))) ≠ []
    if cell_occupied then
      -- the source issues `revertTurn db1 gid expected_turn` here and then
      -- raises; the raise aborts the transaction, so no write of this
      -- transaction (the claim, this one, or anything else) is committed
      let _ := revertTurn db1 gid expected_turn
      Except.error ⟨400, "Cell already occupied"⟩
    else
      let newMove : MoveRow := ⟨db1.next_move_id, gid, uid, row, col, move_no⟩
      if moveInsertViolation db1 newMove then Except.error ⟨500, "IntegrityError"⟩
      else
        let db2 : DB :=
          { db1 with moves := db1.moves ++ [newMove],
                     next_move_id := db1.next_move_id + 1 }
        match construct_board (db2.orderedMoves gid) with
        | Except.error e => Except.error ⟨500, e⟩
        | Except.ok board =>
          let winner := find_winner board
          -- after the synchronized conditional UPDATE the in-memory
          -- `game.turn_no` reads back as `expected_turn + 1`
          let turn_now := expected_turn + 1
          if winner.isSome then
            Except.ok (db2.updateGame gid (fun g =>
              { g with status := GameStatus.finished, winner_id := winner,
                       completed_at := some now }))
          else if turn_now ≥ 9 then
            Except.ok (db2.updateGame gid (fun g =>
              { g with status := GameStatus.finished, completed_at := some now }))
          else
            Except.ok db2

/-- src/service.py `Service.move`: the guards of lines 126-140 followed by
`submitClaimed`.  The returned game view is a pure read of the committed
state (`get_game_view`) and is omitted from the embedded result. -/
def move (db : DB) (gid : Nat) (uid : Nat) (row col : Nat) (now : Nat) : Res DB :=
  match db.getGame gid with
  | none => Except.error ⟨404, "Game not found"⟩
  | some game =>
    if game.status ≠ GameStatus.in_progress then
      Except.error ⟨400, "Game not in progress"⟩
    else if ¬ (db.gamePlayers gid).any (fun p => decide (p.user_id = uid)) then
      Except.error ⟨400, "User not in this game"⟩
    else
      let expected_turn := game.turn_no
      let order := expected_turn % 2
      if orderDictGet (db.gamePlayers gid) order ≠ some uid then
        Except.error ⟨400, "Not your turn"⟩
      else
        submitClaimed db gid uid row col expected_turn now

/-- src/src/models.py `MoveRequest`: pydantic validates
`row: int = Field(ge=0, le=2)` and `col: int = Field(ge=0, le=2)` before
the router hands the request to the service. -/
def moveRequestValid (row col : Int) : Bool :=
  decide (0 ≤ row) && decide (row ≤ 2) && decide (0 ≤ col) && decide (col ≤ 2)

/-- src/router.py POST `/game/{game_id}/move`: request validation (FastAPI
rejects an invalid body with a 422 before the endpoint runs), then
`Service.move`. -/
def moveEndpoint (db : DB) (gid uid : Nat) (row col : Int) (now : Nat) : Res DB :=
  if moveRequestValid row col then move db gid uid row.toNat col.toNat now
  else Except.error ⟨422, "Unprocessable Entity"⟩

/-- The state the caller observes once the request transaction finished:
the new store on commit, the unchanged store on rollback. -/
def committedState (db : DB) (r : Res DB) : DB :=
  match r with
  | Except.ok db' => db'
  | Except.error _ => db

/-! ### src/service.py: read-only aggregation -/

/-- src/src/models.py `UserStats` (the `win_ratio` field of the source is
called `winRate` here; `loses` may in principle go negative on an
arbitrary store, hence `Int`). -/
structure UserStats where
  user_id : Nat
  games : Nat
  wins : Nat
  loses : Int
  draws : Nat
  winRate : Rat
  efficiency : Option Rat
deriving DecidableEq, Repr

/-- `count(Player.id) where Player.user_id == user_id`. -/
def gamesCount (db : DB) (uid : Nat) : Nat :=
  (db.players.filter (fun p => decide (p.user_id = uid))).length

/-- `count(Game.id) where Game.winner_id == user_id`. -/
def winsCount (db : DB) (uid : Nat) : Nat :=
  (db.games.filter (fun g => decide (g.winner_id = some uid))).length

/-- The draw query of `get_user_stats`: finished games with no winner,
joined against the user's seats. -/
def drawGameRows (db : DB) (uid : Nat) : List Nat :=
  (db.games.filter (fun g =>
      decide (g.status = GameStatus.finished) && decide (g.winner_id = none))).flatMap
    (fun g => (db.players.filter (fun p =>
      decide (p.game_id = g.id) && decide (p.user_id = uid))).map (fun _ => g.id))

/-- `count(Move.id) where Move.game_id == gid and Move.user_id == uid`. -/
def userMovesInGame (db : DB) (uid gid : Nat) : Nat :=
  (db.moves.filter (fun m =>
    decide (m.game_id = gid) && decide (m.user_id = uid))).length

/-- The grouped winner-move query (`group_by(Move.game_id)` over the join
with `Game.winner_id == user`): one `(game, count)` row per game the user
won in which they made at least one move. -/
def winnerMoveGroups (db : DB) (uid : Nat) : List (Nat × Nat) :=
  (db.games.filter (fun g => decide (g.winner_id = some uid))).filterMap
    (fun g =>
      let c := userMovesInGame db uid g.id
      if c ≠ 0 then some (g.id, c) else none)

/-- src/service.py `Service.get_user_stats`.  The method runs no `s.get`
and raises nothing, so it is total; the `Res` wrapper mirrors the other
endpoints. -/
def get_user_stats (db : DB) (uid : Nat) : Res UserStats :=
  let games_played := gamesCount db uid
  let wins := winsCount db uid
  let draws := (drawGameRows db uid).length
  let loses : Int := (games_played : Int) - wins - draws
  let wr : Rat := if games_played ≠ 0 then (wins : Rat) / games_played else 0
  let groups := winnerMoveGroups db uid
  let efficiency : Option Rat :=
    if groups ≠ [] then some (((groups.map (fun x => (x.2 : Rat))).sum) / groups.length)
    else none
  Except.ok ⟨uid, games_played, wins, loses, draws, wr, efficiency⟩

/-- src/src/models.py `LeaderBoard`. -/
structure LeaderBoard where
  user_id : Nat
  value : Rat
  wins : Nat
  games : Nat
deriving DecidableEq, Repr

/-- Result of `Service.leaderboard`: a ranked list, or the
"Unsupported metric" sentinel string. -/
inductive LBResult where
  | ranked (rows : List LeaderBoard)
  | unsupported
deriving DecidableEq, Repr

/-- `AVG` of the winner's per-game move counts, as the efficiency
subquery computes it; `none` when the user has no winner-move rows
(the user is then absent from the `efficiency` dict). -/
def efficiencyOf (db : DB) (uid : Nat) : Option Rat :=
  let gs := winnerMoveGroups db uid
  if gs ≠ [] then some (((gs.map (fun x => (x.2 : Rat))).sum) / gs.length) else none

/-- `set(total_games_by_user) | set(wins_by_user) | set(efficiency)`:
every user holding a seat or recorded as a winner (the efficiency keys are
a subset of the winners). -/
def allUsers (db : DB) : List Nat :=
  ((db.players.map (fun p => p.user_id)) ++ (db.games.filterMap (fun g => g.winner_id))).dedup

/-- The rows built for `metric == "wins"`. -/
def winRows (db : DB) : List LeaderBoard :=
  (allUsers db).map (fun u =>
    ⟨u, (winsCount db u : Rat), winsCount db u, gamesCount db u⟩)

/-- The rows built for `metric == "efficiency"`: `value` is the user's
average, and a user whose `efficiency.get(user, 0)` is falsy (absent or
zero) is skipped. -/
def effRows (db : DB) : List LeaderBoard :=
  (allUsers db).filterMap (fun u =>
    match efficiencyOf db u with
    | some v => if v ≠ 0 then some ⟨u, v, winsCount db u, gamesCount db u⟩ else none
    | none => none)

/-- The sort key `(-x.value, x.user_id)` of the wins board, as a Bool
"less or equal". -/
def winsLe (a b : LeaderBoard) : Bool :=
  decide (b.value < a.value) ||
    (decide (a.value = b.value) && decide (a.user_id ≤ b.user_id))

/-- The sort key `(x.value, -wins_by_user.get(x.user_id, 0), x.user_id)`
of the efficiency board, as a Bool "less or equal". -/
def effLe (db : DB) (a b : LeaderBoard) : Bool :=
  decide (a.value < b.value) ||
    (decide (a.value = b.value) &&
      (decide (winsCount db b.user_id < winsCount db a.user_id) ||
        (decide (winsCount db a.user_id = winsCount db b.user_id) &&
          decide (a.user_id ≤ b.user_id))))

/-- src/service.py `Service.leaderboard`: build the metric's rows, sort
them by the metric's key, return the first three; any other metric yields
the sentinel. -/
def leaderboard (db : DB) (metric : String) : LBResult :=
  if metric = "wins" then
    .ranked (((winRows db).insertionSort (fun a b => winsLe a b = true)).take 3)
  else if metric = "efficiency" then
    .ranked (((effRows db).insertionSort (fun a b => effLe db a b = true)).take 3)
  else .unsupported

/-! ### Claim C10 -/

/-- Claim C10: `GetUserStats` never fails for any user id (the method
contains no lookup that could raise `NotFound`), and for a user with no
seats, no wins and no moves it returns games=0, wins=0, draws=0, losses=0,
winRatio=0 and an absent efficiency. -/
theorem get_user_stats_total_and_default :
    (∀ db uid, ∃ st, get_user_stats db uid = Except.ok st) ∧
    (∀ db uid,
      (∀ p ∈ db.players, p.user_id ≠ uid) →
      (∀ g ∈ db.games, g.winner_id ≠ some uid) →
      (∀ m ∈ db.moves, m.user_id ≠ uid) →
      get_user_stats db uid = Except.ok ⟨uid, 0, 0, 0, 0, 0, none⟩) := by
  constructor
  · intro db uid
    exact ⟨_, rfl⟩
  · intro db uid hp hg _hm
    have hgc : gamesCount db uid = 0 := by
      simp only [gamesCount, List.length_eq_zero, List.filter_eq_nil_iff]
      intro p hpmem
      simp [hp p hpmem]
    have hwc : winsCount db uid = 0 := by
      simp only [winsCount, List.length_eq_zero, List.filter_eq_nil_iff]
      intro g hgmem
      simp [hg g hgmem]
    have hdraw : drawGameRows db uid = [] := by
      simp only [drawGameRows, List.flatMap_eq_nil_iff]
      intro g _
      simp only [List.map_eq_nil_iff, List.filter_eq_nil_iff]
      intro p hpmem
      simp [hp p hpmem]
    have hwmg : winnerMoveGroups db uid = [] := by
      have : (db.games.filter (fun g => decide (g.winner_id = some uid))) = [] := by
        simp only [List.filter_eq_nil_iff]
        intro g hgmem
        simp [hg g hgmem]
      simp [winnerMoveGroups, this]
    simp [get_user_stats, hgc, hwc, hdraw, hwmg]

/-- Witness for C10 at a concrete input: the empty store and user id 7. -/
theorem get_user_stats_total_and_default_witness :
    get_user_stats DB.empty 7 = Except.ok ⟨7, 0, 0, 0, 0, 0, none⟩ :=
  get_user_stats_total_and_default.2 DB.empty 7
    (by intro p hp; simp [DB.empty] at hp)
    (by intro g hg; simp [DB.empty] at hg)
    (by intro m hm; simp [DB.empty] at hm)

/-! ### Claim C7: win detection -/

/-- `u` occupies every cell of the triple `cond` on board `b`. -/
def tripleFilled (b : Board) (cond : List (Nat × Nat)) (u : Nat) : Prop :=
  ∀ rc ∈ cond, cellAt b rc = some u

instance (b : Board) (cond : List (Nat × Nat)) (u : Nat) :
    Decidable (tripleFilled b cond u) := by
  unfold tripleFilled; infer_instance

/-- A three-cell condition wins exactly when one user fills its cells. -/
theorem tripleWins_cons3 (b : Board) (p q r : Nat × Nat) :
    tripleWins b [p, q, r] = true ↔
      ∃ u, cellAt b p = some u ∧ cellAt b q = some u ∧ cellAt b r = some u := by
  cases hp : cellAt b p with
  | none => simp [tripleWins, tripleIds, hp]
  | some a =>
    cases hq : cellAt b q with
    | none =>
      simp only [tripleWins, tripleIds, List.map_cons, List.map_nil, hp, hq,
        Option.isSome_some, Bool.true_and, beq_iff_eq, List.count_cons, List.count_nil]
      constructor
      · intro h
        exfalso
        split_ifs at h <;> simp_all
      · rintro ⟨u, _, hq2, _⟩
        simp_all
    | some c =>
      cases hr : cellAt b r with
      | none =>
        simp only [tripleWins, tripleIds, List.map_cons, List.map_nil, hp, hq, hr,
          Option.isSome_some, Bool.true_and, beq_iff_eq, List.count_cons, List.count_nil]
        constructor
        · intro h
          exfalso
          split_ifs at h <;> simp_all
        · rintro ⟨u, _, _, hr2⟩
          simp_all
      | some d =>
        simp only [tripleWins, tripleIds, List.map_cons, List.map_nil, hp, hq, hr,
          Option.isSome_some, Bool.true_and, beq_iff_eq, List.count_cons, List.count_nil,
          Option.some.injEq]
        constructor
        · intro h
          split_ifs at h <;> simp_all
        · rintro ⟨u, rfl, hc, hd⟩
          simp [hc, hd]

/-- Every victory condition is a literal three-element list. -/
theorem vc_length : ∀ cond ∈ VICTORY_CONDITIONS, cond.length = 3 := by decide

/-- For the 8 fixed conditions, `tripleWins` means "one user fills the
triple". -/
theorem tripleWins_iff_filled (b : Board) (cond : List (Nat × Nat))
    (hc : cond ∈ VICTORY_CONDITIONS) :
    tripleWins b cond = true ↔ ∃ u, tripleFilled b cond u := by
  obtain ⟨p, q, r, rfl⟩ := List.length_eq_three.mp (vc_length cond hc)
  rw [tripleWins_cons3]
  constructor
  · rintro ⟨u, h1, h2, h3⟩
    refine ⟨u, ?_⟩
    intro rc hrc
    simp only [List.mem_cons, List.not_mem_nil, or_false] at hrc
    rcases hrc with rfl | rfl | rfl
    · exact h1
    · exact h2
    · exact h3
  · rintro ⟨u, hfill⟩
    exact ⟨u, hfill p (by simp), hfill q (by simp), hfill r (by simp)⟩

/-- Claim C7 (amended): `find_winner` checks exactly the 8 fixed triples:
(i) it returns `some u` only when `u` fills one of them; (ii) it returns
`none` when no user fills any of them (in particular on a full board with
no three-in-a-line); (iii) it returns `u` whenever `u` fills one of the
triples and no other user fills a triple. -/
theorem find_winner_characterization (b : Board) :
    (∀ u, find_winner b = some u →
      ∃ cond ∈ VICTORY_CONDITIONS, tripleFilled b cond u) ∧
    ((∀ cond ∈ VICTORY_CONDITIONS, ∀ v, ¬ tripleFilled b cond v) →
      find_winner b = none) ∧
    (∀ u, (∃ cond ∈ VICTORY_CONDITIONS, tripleFilled b cond u) →
      (∀ cond ∈ VICTORY_CONDITIONS, ∀ v, tripleFilled b cond v → v = u) →
      find_winner b = some u) := by
  refine ⟨?_, ?_, ?_⟩
  · intro u hu
    unfold find_winner at hu
    cases hfind : VICTORY_CONDITIONS.find? (fun cond => tripleWins b cond) with
    | none => rw [hfind] at hu; exact absurd hu (by simp)
    | some cond =>
      rw [hfind] at hu
      have hmem := List.mem_of_find?_eq_some hfind
      have hwins := List.find?_some hfind
      obtain ⟨v, hfill⟩ := (tripleWins_iff_filled b cond hmem).mp hwins
      obtain ⟨p, q, r, rfl⟩ := List.length_eq_three.mp (vc_length _ hmem)
      have hp := hfill p (by simp)
      have hu' : (tripleIds b [p, q, r]).headD none = some u := hu
      simp only [tripleIds, List.map_cons, List.headD_cons, hp,
        Option.some.injEq] at hu'
      subst hu'
      exact ⟨[p, q, r], hmem, hfill⟩
  · intro hnone
    unfold find_winner
    have : VICTORY_CONDITIONS.find? (fun cond => tripleWins b cond) = none := by
      rw [List.find?_eq_none]
      intro cond hc hw
      obtain ⟨v, hfill⟩ := (tripleWins_iff_filled b cond hc).mp hw
      exact hnone cond hc v hfill
    rw [this]
  · rintro u ⟨cond₀, hc₀, hfill₀⟩ honly
    unfold find_winner
    cases hfind : VICTORY_CONDITIONS.find? (fun cond => tripleWins b cond) with
    | none =>
      rw [List.find?_eq_none] at hfind
      exact absurd ((tripleWins_iff_filled b cond₀ hc₀).mpr ⟨u, hfill₀⟩)
        (hfind cond₀ hc₀)
    | some cond =>
      have hmem := List.mem_of_find?_eq_some hfind
      have hwins := List.find?_some hfind
      obtain ⟨v, hfill⟩ := (tripleWins_iff_filled b cond hmem).mp hwins
      obtain ⟨p, q, r, rfl⟩ := List.length_eq_three.mp (vc_length _ hmem)
      have hv := honly _ hmem v hfill
      have hp := hfill p (by simp)
      show (tripleIds b [p, q, r]).headD none = some u
      simp [tripleIds, hp, hv]

/-- Witness for C7: on the board with the top row filled by user 1 and all
other cells empty, `find_winner` returns user 1. -/
theorem find_winner_characterization_witness :
    find_winner [[some 1, some 1, some 1], [none, none, none], [none, none, none]]
      = some 1 := by
  apply (find_winner_characterization _).2.2 1
  · exact ⟨[(0, 0), (0, 1), (0, 2)], by decide, by decide⟩
  · intro cond hc v hv
    fin_cases hc <;>
      first
        | (have h := hv (1, 0) (by decide); simp [cellAt] at h)
        | (have h := hv (1, 1) (by decide); simp [cellAt] at h)
        | (have h := hv (1, 2) (by decide); simp [cellAt] at h)
        | (have h := hv (2, 0) (by decide); simp [cellAt] at h)
        | (have h := hv (0, 0) (by decide); simp [cellAt] at h; omega)

/-- The board refuting C7 as stated: user 1 fills the middle row, but the
top row — earlier in the fixed enumeration — is filled by user 2. -/
def twoLineBoard : Board :=
  [[some 2, some 2, some 2], [some 1, some 1, some 1], [none, none, none]]

/-- Counterexample to C7 as stated: one of the 8 canonical triples (the
middle row) is filled by user 1, yet `find_winner` does not return user 1
— it returns user 2, whose triple comes first in the enumeration.  So
"for any grid where one of the 8 canonical triples is filled by one user
and the remaining cells are arbitrary, it returns that user" is false. -/
theorem find_winner_two_lines_counterexample :
    (∃ cond ∈ VICTORY_CONDITIONS, tripleFilled twoLineBoard cond 1) ∧
    find_winner twoLineBoard ≠ some 1 ∧ find_winner twoLineBoard = some 2 := by
  decide

/-! ### Store lemmas: unique game ids -/

/-- The store keeps game primary keys unique. -/
def gamesNodup (db : DB) : Prop := (db.games.map GameRow.id).Nodup

instance (db : DB) : Decidable (gamesNodup db) := by
  unfold gamesNodup; infer_instance

/-- A filter that pins the game id, under unique game ids, keeps at most
the row that `find?` locates. -/
theorem filter_by_id (l : List GameRow) (hnd : (l.map GameRow.id).Nodup)
    (gid : Nat) (P : GameRow → Bool) :
    l.filter (fun g => decide (g.id = gid) && P g) =
      (match l.find? (fun g => decide (g.id = gid)) with
       | some g => if P g then [g] else []
       | none => []) := by
  induction l with
  | nil => simp
  | cons a l ih =>
    rw [List.map_cons, List.nodup_cons] at hnd
    by_cases ha : a.id = gid
    · have htail : l.filter (fun g => decide (g.id = gid) && P g) = [] := by
        rw [List.filter_eq_nil_iff]
        intro x hx
        have hxne : ¬ x.id = gid := by
          intro hxe
          exact hnd.1 (by rw [ha, ← hxe]; exact List.mem_map_of_mem GameRow.id hx)
        simp [hxne]
      have hd : decide (a.id = gid) = true := by simp [ha]
      rw [List.filter_cons, List.find?_cons, hd]
      simp only [Bool.true_and, htail]
    · have hd : decide (a.id = gid) = false := by simp [ha]
      rw [List.filter_cons, List.find?_cons, hd]
      simp only [Bool.false_and]
      rw [ih hnd.2]
      simp only [Bool.false_eq_true, if_false]

/-- Under unique ids the conditional UPDATE matches one row when the
stored counter equals `expected_turn`, zero rows otherwise. -/
theorem claimTurnRowcount_eq (db : DB) (hnd : gamesNodup db) (gid t : Nat) :
    claimTurnRowcount db gid t =
      (match db.getGame gid with
       | some g => if g.turn_no = t then 1 else 0
       | none => 0) := by
  unfold claimTurnRowcount DB.getGame
  rw [filter_by_id db.games hnd gid (fun g => decide (g.turn_no = t))]
  cases db.games.find? (fun g => decide (g.id = gid)) with
  | none => simp
  | some g => by_cases h : g.turn_no = t <;> simp [h]

/-- The "exactly one row affected" characterisation of the atomic claim. -/
theorem claimTurnRowcount_eq_one_iff (db : DB) (hnd : gamesNodup db) (gid t : Nat) :
    claimTurnRowcount db gid t = 1 ↔
      ∃ g, db.getGame gid = some g ∧ g.turn_no = t := by
  rw [claimTurnRowcount_eq db hnd gid t]
  cases hg : db.getGame gid with
  | none => simp
  | some g =>
    by_cases h : g.turn_no = t
    · simp [h]
    · simp only [h, if_false]
      constructor
      · omega
      · rintro ⟨g', hg', ht'⟩
        cases Option.some.inj hg'
        exact absurd ht' h

/-- `find?` by game id commutes with an id-preserving row map. -/
theorem find?_games_map (l : List GameRow) (gid : Nat) (f : GameRow → GameRow)
    (hf : ∀ g, (f g).id = g.id) :
    (l.map f).find? (fun g => decide (g.id = gid)) =
      (l.find? (fun g => decide (g.id = gid))).map f := by
  rw [List.find?_map]
  have hp : ((fun g => decide (g.id = gid)) ∘ f) = (fun g => decide (g.id = gid)) := by
    funext g
    simp [Function.comp, hf]
  rw [hp]

/-- Reading the claimed game back after the atomic claim. -/
theorem getGame_claimTurn (db : DB) (gid t : Nat) :
    (claimTurn db gid t).2.getGame gid =
      (db.getGame gid).map (fun g =>
        if g.id = gid ∧ g.turn_no = t then { g with turn_no := g.turn_no + 1 } else g) := by
  unfold claimTurn DB.getGame
  exact find?_games_map db.games gid _ (fun g => by split <;> rfl)

/-- Reading a game back after an id-preserving `updateGame`. -/
theorem getGame_updateGame (db : DB) (gid gid' : Nat) (f : GameRow → GameRow)
    (hf : ∀ g, (f g).id = g.id) :
    (db.updateGame gid f).getGame gid' =
      (db.getGame gid').map (fun g => if g.id = gid then f g else g) := by
  unfold DB.updateGame DB.getGame
  exact find?_games_map db.games gid' _ (fun g => by split <;> simp [hf])

/-- The tentative store inside a move transaction after the atomic claim
and the Move INSERT (the `db2` of `submitClaimed`). -/
def afterInsert (db : DB) (gid uid row col t : Nat) : DB :=
  { (claimTurn db gid t).2 with
      moves := (claimTurn db gid t).2.moves ++
        [⟨(claimTurn db gid t).2.next_move_id, gid, uid, row, col, t + 1⟩],
      next_move_id := (claimTurn db gid t).2.next_move_id + 1 }

/-- The terminal-transition step at the end of `submitClaimed`, applied to
the tentative store `db2` and the reconstructed board. -/
def finishState (db2 : DB) (gid t now : Nat) (b : Board) : DB :=
  if (find_winner b).isSome then
    db2.updateGame gid (fun g =>
      { g with status := GameStatus.finished, winner_id := find_winner b,
               completed_at := some now })
  else if t + 1 ≥ 9 then
    db2.updateGame gid (fun g =>
      { g with status := GameStatus.finished, completed_at := some now })
  else db2

/-- Inversion of a successful `submitClaimed`: the claim affected one row,
the cell was free, the INSERT flushed cleanly, reconstruction succeeded,
and the result is the tentative store after the terminal transition. -/
theorem submitClaimed_ok_inv {db db' : DB} {gid uid row col t now : Nat}
    (h : submitClaimed db gid uid row col t now = Except.ok db') :
    claimTurnRowcount db gid t = 1 ∧
    db.moves.filter (fun m =>
      decide (m.game_id = gid) && decide (m.row = row) && decide (m.col = col)) = [] ∧
    moveInsertViolation db ⟨db.next_move_id, gid, uid, row, col, t + 1⟩ = false ∧
    ∃ b, construct_board ((afterInsert db gid uid row col t).orderedMoves gid) =
        Except.ok b ∧
      db' = finishState (afterInsert db gid uid row col t) gid t now b := by
  unfold submitClaimed at h
  by_cases h1 : claimTurnRowcount db gid t = 1
  · rw [show (claimTurn db gid t).1 = claimTurnRowcount db gid t from rfl] at h
    simp only [h1, ne_eq, not_true_eq_false, if_false] at h
    by_cases h2 : db.moves.filter (fun m =>
        decide (m.game_id = gid) && decide (m.row = row) && decide (m.col = col)) = [] <;>
      rw [show (claimTurn db gid t).2.moves = db.moves from rfl] at h
    · simp only [h2, ne_eq, not_true_eq_false, if_false] at h
      by_cases h3 : moveInsertViolation db ⟨db.next_move_id, gid, uid, row, col, t + 1⟩ = false
      · rw [show (claimTurn db gid t).2.next_move_id = db.next_move_id from rfl] at h
        rw [show moveInsertViolation (claimTurn db gid t).2
              ⟨db.next_move_id, gid, uid, row, col, t + 1⟩ =
            moveInsertViolation db ⟨db.next_move_id, gid, uid, row, col, t + 1⟩ from rfl,
          h3] at h
        simp only [Bool.false_eq_true, if_false] at h
        refine ⟨h1, h2, h3, ?_⟩
        cases hcb : construct_board ((afterInsert db gid uid row col t).orderedMoves gid) with
        | error e =>
          rw [show ({ (claimTurn db gid t).2 with
                moves := db.moves ++ [⟨db.next_move_id, gid, uid, row, col, t + 1⟩],
                next_move_id := db.next_move_id + 1 } : DB) =
              afterInsert db gid uid row col t from rfl, hcb] at h
          cases h
        | ok b =>
          rw [show ({ (claimTurn db gid t).2 with
                moves := db.moves ++ [⟨db.next_move_id, gid, uid, row, col, t + 1⟩],
                next_move_id := db.next_move_id + 1 } : DB) =
              afterInsert db gid uid row col t from rfl, hcb] at h
          refine ⟨b, rfl, ?_⟩
          unfold finishState
          by_cases hw : (find_winner b).isSome
          · simp only [hw, if_true] at h ⊢
            exact (Except.ok.inj h).symm
          · simp only [hw, Bool.false_eq_true, if_false] at h ⊢
            by_cases h9 : t + 1 ≥ 9
            · simp only [h9, if_true] at h ⊢
              exact (Except.ok.inj h).symm
            · simp only [h9, if_false] at h ⊢
              exact (Except.ok.inj h).symm
      · rw [show moveInsertViolation (claimTurn db gid t).2
              ⟨(claimTurn db gid t).2.next_move_id, gid, uid, row, col, t + 1⟩ =
            moveInsertViolation db ⟨db.next_move_id, gid, uid, row, col, t + 1⟩ from rfl] at h
        rw [Bool.not_eq_false] at h3
        rw [h3] at h
        simp only [if_true] at h
        cases h
    · simp only [h2, ne_eq, not_false_eq_true, if_true] at h
      cases h
  · rw [show (claimTurn db gid t).1 = claimTurnRowcount db gid t from rfl] at h
    simp only [h1, ne_eq, not_false_eq_true, if_true] at h
    cases h

/-- Forward direction: when the claim, the free-cell check, the flush and
the reconstruction all pass, `submitClaimed` commits the finish state. -/
theorem submitClaimed_eq_ok {db : DB} {gid uid row col t now : Nat} {b : Board}
    (h1 : claimTurnRowcount db gid t = 1)
    (h2 : db.moves.filter (fun m =>
      decide (m.game_id = gid) && decide (m.row = row) && decide (m.col = col)) = [])
    (h3 : moveInsertViolation db ⟨db.next_move_id, gid, uid, row, col, t + 1⟩ = false)
    (hcb : construct_board ((afterInsert db gid uid row col t).orderedMoves gid) =
      Except.ok b) :
    submitClaimed db gid uid row col t now =
      Except.ok (finishState (afterInsert db gid uid row col t) gid t now b) := by
  unfold submitClaimed
  rw [show (claimTurn db gid t).1 = claimTurnRowcount db gid t from rfl]
  simp only [h1, ne_eq, not_true_eq_false, if_false]
  rw [show (claimTurn db gid t).2.moves = db.moves from rfl]
  simp only [h2, ne_eq, not_true_eq_false, if_false]
  rw [show (claimTurn db gid t).2.next_move_id = db.next_move_id from rfl]
  rw [show moveInsertViolation (claimTurn db gid t).2
        ⟨db.next_move_id, gid, uid, row, col, t + 1⟩ =
      moveInsertViolation db ⟨db.next_move_id, gid, uid, row, col, t + 1⟩ from rfl, h3]
  simp only [Bool.false_eq_true, if_false]
  rw [show ({ (claimTurn db gid t).2 with
        moves := db.moves ++ [⟨db.next_move_id, gid, uid, row, col, t + 1⟩],
        next_move_id := db.next_move_id + 1 } : DB) =
      afterInsert db gid uid row col t from rfl, hcb]
  unfold finishState
  by_cases hw : (find_winner b).isSome
  · simp only [hw, if_true]
  · simp only [hw, Bool.false_eq_true, if_false]
    by_cases h9 : t + 1 ≥ 9
    · simp only [h9, if_true]
    · simp only [h9, if_false]

/-- Inversion of a successful `move`: all guards passed and the claimed
turn is the stored counter. -/
theorem move_ok_inv {db db' : DB} {gid uid row col now : Nat}
    (h : move db gid uid row col now = Except.ok db') :
    ∃ g, db.getGame gid = some g ∧ g.status = GameStatus.in_progress ∧
      (db.gamePlayers gid).any (fun p => decide (p.user_id = uid)) = true ∧
      orderDictGet (db.gamePlayers gid) (g.turn_no % 2) = some uid ∧
      submitClaimed db gid uid row col g.turn_no now = Except.ok db' := by
  unfold move at h
  cases hg : db.getGame gid with
  | none => rw [hg] at h; cases h
  | some g =>
    rw [hg] at h
    by_cases hs : g.status = GameStatus.in_progress
    · simp only [hs, ne_eq, not_true_eq_false, if_false] at h
      by_cases hp : (db.gamePlayers gid).any (fun p => decide (p.user_id = uid)) = true
      · simp only [hp, not_true_eq_false, if_false] at h
        by_cases ho : orderDictGet (db.gamePlayers gid) (g.turn_no % 2) = some uid
        · simp only [ho, ne_eq, not_true_eq_false, if_false] at h
          exact ⟨g, rfl, hs, hp, ho, h⟩
        · simp only [ho, ne_eq, not_false_eq_true, if_true] at h
          cases h
      · simp only [hp, not_false_eq_true, if_true] at h
        cases h
    · simp only [hs, ne_eq, not_false_eq_true, if_true] at h
      cases h


/-! ### Board reconstruction lemmas -/

def boardShape (b : Board) : Prop := b.length = 3 ∧ ∀ r ∈ b, r.length = 3

theorem emptyBoard_shape : boardShape emptyBoard := by
  constructor
  · rfl
  · decide

theorem setCell_inv {b b' : Board} (hb : boardShape b) {r c : Nat} {v : Option Nat}
    (h : setCell b r c v = Except.ok b') :
    r < 3 ∧ c < 3 ∧ boardShape b' ∧ cellAt b' (r, c) = v ∧
      ∀ r' c', ¬ (r' = r ∧ c' = c) → cellAt b' (r', c') = cellAt b (r', c') := by
  unfold setCell at h
  split at h
  · rename_i hr
    split at h
    · rename_i hc
      have hb3 := hb.1
      have hrow3 : (b.get ⟨r, hr⟩).length = 3 := hb.2 _ (List.get_mem b r hr)
      obtain rfl := Except.ok.inj h
      refine ⟨by omega, by omega, ?_, ?_, ?_⟩
      · constructor
        · simp [List.length_set, hb3]
        · intro row hrow
          rcases List.mem_or_eq_of_mem_set hrow with hmem | rfl
          · exact hb.2 _ hmem
          · rw [List.length_set]
            exact hrow3
      · unfold cellAt
        simp only [List.getD_eq_getElem?_getD]
        rw [List.getElem?_set_self (by omega)]
        simp only [Option.getD_some]
        rw [List.getElem?_set_self (by omega)]
        rfl
      · intro r' c' hne
        unfold cellAt
        simp only [List.getD_eq_getElem?_getD]
        by_cases hrr : r = r'
        · subst hrr
          have hc' : ¬ c' = c := fun hcc => hne ⟨rfl, hcc⟩
          rw [List.getElem?_set_self (by omega)]
          simp only [Option.getD_some]
          rw [List.getElem?_set_ne (fun hcc => hc' hcc.symm)]
          have : b[r]? = some (b.get ⟨r, hr⟩) := by
            rw [List.getElem?_eq_getElem hr]
            rfl
          rw [this]
          rfl
        · rw [List.getElem?_set_ne hrr]
    · cases h
  · cases h

theorem setCell_ok {b : Board} (hb : boardShape b) {r c : Nat} (v : Option Nat)
    (hr : r < 3) (hc : c < 3) : ∃ b', setCell b r c v = Except.ok b' := by
  have hr' : r < b.length := by rw [hb.1]; omega
  have hc' : c < (b.get ⟨r, hr'⟩).length := by
    rw [hb.2 _ (List.get_mem b r hr')]
    omega
  refine ⟨b.set r ((b.get ⟨r, hr'⟩).set c v), ?_⟩
  unfold setCell
  rw [dif_pos hr', if_pos hc']

theorem constructAux_ok (ms : List MoveRow) :
    ∀ b0 : Board, boardShape b0 → (∀ m ∈ ms, m.row < 3 ∧ m.col < 3) →
      ∃ b, ms.foldlM (fun b m => setCell b m.row m.col (some m.user_id)) b0 = Except.ok b ∧
        boardShape b := by
  induction ms with
  | nil =>
    intro b0 hb _
    exact ⟨b0, rfl, hb⟩
  | cons m ms ih =>
    intro b0 hb hbd
    obtain ⟨b1, hset⟩ := setCell_ok hb (some m.user_id) (hbd m (by simp)).1 (hbd m (by simp)).2
    have h1 := setCell_inv hb hset
    obtain ⟨b, hfold, hshape⟩ := ih b1 h1.2.2.1 (fun x hx => hbd x (by simp [hx]))
    refine ⟨b, ?_, hshape⟩
    rw [List.foldlM_cons, hset]
    exact hfold

theorem constructAux_inv (ms : List MoveRow) :
    ∀ b0 b : Board, boardShape b0 →
      ms.foldlM (fun b m => setCell b m.row m.col (some m.user_id)) b0 = Except.ok b →
      (∀ m ∈ ms, m.row < 3 ∧ m.col < 3) ∧ boardShape b ∧
      ∀ r c : Nat, (cellAt b0 (r, c) ≠ none ∨ ∃ m ∈ ms, m.row = r ∧ m.col = c) →
        cellAt b (r, c) ≠ none := by
  induction ms with
  | nil =>
    intro b0 b hb h
    obtain rfl : b0 = b := Except.ok.inj h
    refine ⟨by simp, hb, ?_⟩
    rintro r c (h0 | ⟨m, hm, _⟩)
    · exact h0
    · cases hm
  | cons m ms ih =>
    intro b0 b hb h
    rw [List.foldlM_cons] at h
    cases hset : setCell b0 m.row m.col (some m.user_id) with
    | error e => rw [hset] at h; cases h
    | ok b1 =>
      rw [hset] at h
      have h1 := setCell_inv hb hset
      have hrec := ih b1 b h1.2.2.1 h
      refine ⟨?_, hrec.2.1, ?_⟩
      · intro x hx
        rcases List.mem_cons.mp hx with rfl | hx'
        · exact ⟨h1.1, h1.2.1⟩
        · exact hrec.1 x hx'
      · intro r c hrc
        apply hrec.2.2
        by_cases hm : m.row = r ∧ m.col = c
        · left
          have hcell := h1.2.2.2.1
          rw [hm.1, hm.2] at hcell
          rw [hcell]
          simp
        · rcases hrc with hc0 | ⟨m', hm', hrc'⟩
          · left
            rw [h1.2.2.2.2 r c (by tauto)]
            exact hc0
          · rcases List.mem_cons.mp hm' with rfl | hmem
            · exact absurd ⟨hrc'.1, hrc'.2⟩ hm
            · right
              exact ⟨m', hmem, hrc'⟩
/-- A row located by `getGame` belongs to the table and bears the id. -/
theorem getGame_some {db : DB} {gid : Nat} {g : GameRow} (h : db.getGame gid = some g) :
    g ∈ db.games ∧ g.id = gid :=
  ⟨List.mem_of_find?_eq_some h, by simpa using List.find?_some h⟩

/-- A lost claim makes the whole move attempt fail with the Conflict
error. -/
theorem submitClaimed_conflict {db : DB} {gid uid row col t now : Nat}
    (h1 : claimTurnRowcount db gid t ≠ 1) :
    submitClaimed db gid uid row col t now =
      Except.error ⟨400, "Concurrent moves, try again"⟩ := by
  unfold submitClaimed
  rw [show (claimTurn db gid t).1 = claimTurnRowcount db gid t from rfl]
  simp only [h1, ne_eq, not_false_eq_true, if_true]

/-- After a committed move for turn slot `t`, no game row of that match
still carries counter value `t`: the slot is consumed. -/
theorem claimTurnRowcount_after_ok {db db' : DB} {gid uid row col t now : Nat}
    (h : submitClaimed db gid uid row col t now = Except.ok db') :
    claimTurnRowcount db' gid t = 0 := by
  obtain ⟨h1, h2, h3, b, hcb, rfl⟩ := submitClaimed_ok_inv h
  unfold claimTurnRowcount
  rw [List.length_eq_zero, List.filter_eq_nil_iff]
  intro x hx
  simp only [Bool.and_eq_true, decide_eq_true_eq, not_and]
  intro hid hturn
  have hgames2 : (afterInsert db gid uid row col t).games =
      db.games.map (fun g =>
        if g.id = gid ∧ g.turn_no = t then { g with turn_no := g.turn_no + 1 } else g) :=
    rfl
  have key : ∀ f : GameRow → GameRow, (∀ g, (f g).id = g.id) →
      (∀ g, (f g).turn_no = g.turn_no) →
      x ∈ ((afterInsert db gid uid row col t).games.map f) → False := by
    intro f hfid hfturn hmem
    rw [hgames2, List.map_map] at hmem
    obtain ⟨y, _, rfl⟩ := List.mem_map.mp hmem
    simp only [Function.comp] at hid hturn
    rw [hfid] at hid
    rw [hfturn] at hturn
    by_cases hy : y.id = gid ∧ y.turn_no = t
    · rw [if_pos hy] at hturn
      simp at hturn
      omega
    · rw [if_neg hy] at hid hturn
      exact hy ⟨hid, hturn⟩
  unfold finishState at hx
  split at hx
  · exact key _ (fun g => by split <;> rfl) (fun g => by split <;> rfl) hx
  · split at hx
    · exact key _ (fun g => by split <;> rfl) (fun g => by split <;> rfl) hx
    · exact key id (fun g => rfl) (fun g => rfl) (by simpa using hx)

/-- Claim C2: the turn claim succeeds iff the atomic conditional update
(advance the counter from `expectedTurn` to `expectedTurn+1`) affects
exactly one row; otherwise the move attempt fails with the Conflict error
and the transaction commits nothing; once a move has been accepted for a
turn slot, any further attempt at the same slot fails with Conflict — at
most one move per slot. -/
theorem turn_claim_atomic (db : DB) (gid uid row col t now : Nat)
    (hnd : gamesNodup db) :
    (claimTurnRowcount db gid t = 1 ↔
      ∃ g, db.getGame gid = some g ∧ g.turn_no = t) ∧
    (claimTurnRowcount db gid t ≠ 1 →
      submitClaimed db gid uid row col t now =
        Except.error ⟨400, "Concurrent moves, try again"⟩ ∧
      committedState db (submitClaimed db gid uid row col t now) = db) ∧
    (∀ db', submitClaimed db gid uid row col t now = Except.ok db' →
      claimTurnRowcount db gid t = 1 ∧
      (∀ uid' row' col' now', submitClaimed db' gid uid' row' col' t now' =
        Except.error ⟨400, "Concurrent moves, try again"⟩)) := by
  refine ⟨claimTurnRowcount_eq_one_iff db hnd gid t, ?_, ?_⟩
  · intro h1
    have he := @submitClaimed_conflict db gid uid row col t now h1
    exact ⟨he, by rw [he]; rfl⟩
  · intro db' h
    refine ⟨(submitClaimed_ok_inv h).1, ?_⟩
    intro uid' row' col' now'
    apply submitClaimed_conflict
    rw [claimTurnRowcount_after_ok h]
    omega

/-! ### Claim C3: the CellOccupied compensation -/

/-- The compensation write of src/service.py lines 163-167 never changes
the store: it matches rows whose counter equals `expected_turn` and writes
`expected_turn` into them — the counter it would have to match to undo the
claim is `expected_turn + 1`. -/
theorem revertTurn_noop (db : DB) (gid t : Nat) : revertTurn db gid t = db := by
  unfold revertTurn
  have hmap : db.games.map (fun g =>
      if g.id = gid ∧ g.turn_no = t then { g with turn_no := t } else g) = db.games := by
    have h1 : ∀ g ∈ db.games,
        (if g.id = gid ∧ g.turn_no = t then { g with turn_no := t } else g) = id g := by
      intro g _
      split
      · rename_i hcond
        simp only [id]
        rw [← hcond.2]
      · rfl
    rw [List.map_congr_left h1, List.map_id]
  rw [hmap]

/-- A move transaction that won the claim but hits an occupied cell fails
with the CellOccupied error. -/
theorem submitClaimed_cell_occupied {db : DB} {gid uid row col t now : Nat}
    (h1 : claimTurnRowcount db gid t = 1)
    (h2 : db.moves.filter (fun m =>
      decide (m.game_id = gid) && decide (m.row = row) && decide (m.col = col)) ≠ []) :
    submitClaimed db gid uid row col t now =
      Except.error ⟨400, "Cell already occupied"⟩ := by
  unfold submitClaimed
  rw [show (claimTurn db gid t).1 = claimTurnRowcount db gid t from rfl]
  simp only [h1, ne_eq, not_true_eq_false, if_false]
  rw [show (claimTurn db gid t).2.moves = db.moves from rfl]
  simp only [h2, ne_eq, not_false_eq_true, if_true]

/-- When every guard of `Service.move` passes, the method reduces to the
Turn Arbitrator body. -/
theorem move_eq_submit {db : DB} {gid uid row col now : Nat} {g : GameRow}
    (hg : db.getGame gid = some g)
    (hs : g.status = GameStatus.in_progress)
    (hp : (db.gamePlayers gid).any (fun p => decide (p.user_id = uid)) = true)
    (ho : orderDictGet (db.gamePlayers gid) (g.turn_no % 2) = some uid) :
    move db gid uid row col now = submitClaimed db gid uid row col g.turn_no now := by
  unfold move
  rw [hg]
  simp only [hs, hp, ho, ne_eq, not_true_eq_false, if_false]

/-- A concrete in-progress match used as witness input: alice (seat 0) and
bob (seat 1), counter at 0, no moves yet. -/
def sampleDb : DB :=
  ⟨[⟨1, "alice"⟩, ⟨2, "bob"⟩],
   [⟨1, GameStatus.in_progress, none, 0, some 100, none⟩],
   [⟨1, 1, 1, 0⟩, ⟨2, 1, 2, 1⟩], [], 3, 2, 3, 1⟩

/-- Witness for C2 on `sampleDb`: the stored counter is 0, so a claim of
turn 0 affects one row, and a claim of turn 5 conflicts. -/
theorem turn_claim_atomic_witness :
    ((claimTurnRowcount sampleDb 1 5 = 1 ↔
      ∃ g, sampleDb.getGame 1 = some g ∧ g.turn_no = 5) ∧
    (claimTurnRowcount sampleDb 1 5 ≠ 1 →
      submitClaimed sampleDb 1 1 0 0 5 200 =
        Except.error ⟨400, "Concurrent moves, try again"⟩ ∧
      committedState sampleDb (submitClaimed sampleDb 1 1 0 0 5 200) = sampleDb) ∧
    (∀ db', submitClaimed sampleDb 1 1 0 0 5 200 = Except.ok db' →
      claimTurnRowcount sampleDb 1 5 = 1 ∧
      (∀ uid' row' col' now', submitClaimed db' 1 uid' row' col' 5 now' =
        Except.error ⟨400, "Concurrent moves, try again"⟩))) ∧
    submitClaimed sampleDb 1 1 0 0 5 200 =
      Except.error ⟨400, "Concurrent moves, try again"⟩ :=
  ⟨turn_claim_atomic sampleDb 1 1 0 0 5 200 (by decide),
   submitClaimed_conflict (by decide)⟩

/-- A concrete match one move in: alice took (0,0) on turn 0, the counter
is 1, it is bob's turn. -/
def occupiedDb : DB :=
  ⟨[⟨1, "alice"⟩, ⟨2, "bob"⟩],
   [⟨1, GameStatus.in_progress, none, 1, some 100, none⟩],
   [⟨1, 1, 1, 0⟩, ⟨2, 1, 2, 1⟩],
   [⟨1, 1, 1, 0, 0, 1⟩],
   3, 2, 3, 2⟩

/-- Counterexample to C3 as stated: bob submits for turn slot 1 targeting
the occupied cell (0,0).  The claim wins (the tentative counter becomes
2 = expectedTurn+1) and the attempt reports CellOccupied — but the code's
compensation compare-and-write is conditioned on the counter still being
`expectedTurn` (= 1), not `expectedTurn+1`: applied to the post-claim
state it changes nothing and leaves the counter at 2.  No write of the
code reverts the counter from expectedTurn+1 back to expectedTurn; the
slot is only restored because the failed transaction rolls back. -/
theorem revert_write_counterexample :
    move occupiedDb 1 2 0 0 200 = Except.error ⟨400, "Cell already occupied"⟩ ∧
    ((claimTurn occupiedDb 1 1).2.getGame 1).map GameRow.turn_no = some 2 ∧
    revertTurn (claimTurn occupiedDb 1 1).2 1 1 = (claimTurn occupiedDb 1 1).2 ∧
    ((revertTurn (claimTurn occupiedDb 1 1).2 1 1).getGame 1).map GameRow.turn_no
      ≠ some 1 := by
  decide

/-- Claim C3 (amended): a SubmitMove that wins the turn claim but targets
an occupied cell reports CellOccupied; the compensation compare-and-write
the code issues is conditioned on the counter still being `expectedTurn`
(not `expectedTurn+1`) and therefore changes nothing; the committed
counter nevertheless stays at `expectedTurn` because the failed
transaction rolls back, and a subsequent SubmitMove by the correct player
for the same turn slot succeeds. -/
theorem cell_occupied_compensation (db : DB) (gid uid row col row2 col2 now now2 : Nat)
    (hnd : gamesNodup db) (g : GameRow)
    (hg : db.getGame gid = some g)
    (hs : g.status = GameStatus.in_progress)
    (hp : (db.gamePlayers gid).any (fun p => decide (p.user_id = uid)) = true)
    (ho : orderDictGet (db.gamePlayers gid) (g.turn_no % 2) = some uid)
    (hocc : db.moves.filter (fun m =>
      decide (m.game_id = gid) && decide (m.row = row) && decide (m.col = col)) ≠ [])
    (hfree : db.moves.filter (fun m =>
      decide (m.game_id = gid) && decide (m.row = row2) && decide (m.col = col2)) = [])
    (hrow2 : row2 < 3) (hcol2 : col2 < 3)
    (hbounds : ∀ m ∈ db.moves, m.game_id = gid → m.row < 3 ∧ m.col < 3)
    (hmn : ∀ m ∈ db.moves, m.game_id = gid → m.move_no ≠ g.turn_no + 1) :
    move db gid uid row col now = Except.error ⟨400, "Cell already occupied"⟩ ∧
    committedState db (move db gid uid row col now) = db ∧
    (∀ dbx : DB, revertTurn dbx gid g.turn_no = dbx) ∧
    ∃ db2, move db gid uid row2 col2 now2 = Except.ok db2 := by
  have hrc : claimTurnRowcount db gid g.turn_no = 1 :=
    (claimTurnRowcount_eq_one_iff db hnd gid g.turn_no).mpr ⟨g, hg, rfl⟩
  have hfail : move db gid uid row col now = Except.error ⟨400, "Cell already occupied"⟩ := by
    rw [move_eq_submit hg hs hp ho]
    exact submitClaimed_cell_occupied hrc hocc
  refine ⟨hfail, by rw [hfail]; rfl, fun dbx => revertTurn_noop dbx gid g.turn_no, ?_⟩
  have hviol : moveInsertViolation db
      ⟨db.next_move_id, gid, uid, row2, col2, g.turn_no + 1⟩ = false := by
    rw [moveInsertViolation, List.any_eq_false]
    intro q hq
    simp only [Bool.and_eq_true, Bool.or_eq_true, decide_eq_true_eq, not_and, not_or]
    intro hqg
    constructor
    · intro hqr
      rw [List.filter_eq_nil_iff] at hfree
      have := hfree q hq
      simp only [Bool.and_eq_true, decide_eq_true_eq, not_and] at this
      intro hqc
      exact this ⟨hqg, hqr⟩ hqc
    · exact hmn q hq hqg
  have hcb : ∃ b, construct_board
      ((afterInsert db gid uid row2 col2 g.turn_no).orderedMoves gid) = Except.ok b ∧
      boardShape b := by
    apply constructAux_ok
    · exact emptyBoard_shape
    · intro m hm
      rw [DB.orderedMoves, List.mem_insertionSort] at hm
      have hm2 : m ∈ (afterInsert db gid uid row2 col2 g.turn_no).moves ∧
          m.game_id = gid := by
        rw [DB.gameMoves] at hm
        have := List.mem_filter.mp hm
        simpa using this
      have hmoves : (afterInsert db gid uid row2 col2 g.turn_no).moves =
          db.moves ++ [⟨db.next_move_id, gid, uid, row2, col2, g.turn_no + 1⟩] := rfl
      rw [hmoves, List.mem_append] at hm2
      rcases hm2.1 with hold | hnew
      · exact hbounds m hold hm2.2
      · simp only [List.mem_singleton] at hnew
        subst hnew
        exact ⟨hrow2, hcol2⟩
  obtain ⟨b, hb, _⟩ := hcb
  refine ⟨finishState (afterInsert db gid uid row2 col2 g.turn_no) gid g.turn_no now2 b, ?_⟩
  rw [move_eq_submit hg hs hp ho]
  exact submitClaimed_eq_ok hrc hfree hviol hb

/-- Witness for the amended C3 on `occupiedDb`: bob hits the occupied cell
(0,0), gets CellOccupied with nothing committed, and his follow-up move to
the free cell (1,1) for the same turn slot succeeds. -/
theorem cell_occupied_compensation_witness :
    move occupiedDb 1 2 0 0 200 = Except.error ⟨400, "Cell already occupied"⟩ ∧
    committedState occupiedDb (move occupiedDb 1 2 0 0 200) = occupiedDb ∧
    (∀ dbx : DB, revertTurn dbx 1 1 = dbx) ∧
    ∃ db2, move occupiedDb 1 2 1 1 300 = Except.ok db2 := by
  have h := cell_occupied_compensation occupiedDb 1 2 0 0 1 1 200 300 (by decide)
    ⟨1, GameStatus.in_progress, none, 1, some 100, none⟩ (by decide) (by decide)
    (by decide) (by decide) (by decide) (by decide) (by decide) (by decide)
    (by decide) (by decide)
  exact h

/-! ### Claim C5: join guards -/

/-- Inversion of a successful `join_game`: every guard (including the
store's `unique_game_user` constraint at flush time) passed, and the
result is the seat INSERT plus, when the match fills up, the InProgress
transition. -/
theorem join_game_ok_inv {db db' : DB} {gid uid now : Nat}
    (h : join_game db gid uid now = Except.ok db') :
    ∃ game, db.getGame gid = some game ∧ game.status = GameStatus.waiting ∧
      (db.getUser uid).isSome = true ∧
      (db.gamePlayers gid).length ≤ 1 ∧
      (∀ p ∈ db.gamePlayers gid, p.user_id ≠ uid) ∧
      (db' =
        (let order := if (db.gamePlayers gid).any (fun p => decide (p.player_order = 0))
                      then 1 else 0
         let db1 : DB := { db with
           players := db.players ++ [⟨db.next_player_id, gid, uid, order⟩],
           next_player_id := db.next_player_id + 1 }
         if (db.gamePlayers gid).length + 1 = 2 then
           db1.updateGame gid (fun g =>
             { g with status := GameStatus.in_progress, started_at := some now })
         else db1)) := by
  unfold join_game at h
  cases hg : db.getGame gid with
  | none => rw [hg] at h; cases h
  | some game =>
    rw [hg] at h
    by_cases hw : game.status = GameStatus.waiting
    · simp only [hw, ne_eq, not_true_eq_false, if_false] at h
      by_cases hu : (db.getUser uid).isNone
      · rw [if_pos hu] at h; cases h
      · rw [if_neg hu] at h
        by_cases hid : (db.gamePlayers gid).any (fun p => decide (p.id = uid)) = true
        · rw [if_pos hid] at h; cases h
        · rw [if_neg hid] at h
          by_cases hlen : (db.gamePlayers gid).length ≥ 2
          · rw [if_pos hlen] at h; cases h
          · rw [if_neg hlen] at h
            by_cases hviol : playerInsertViolation db
                ⟨db.next_player_id, gid, uid,
                  if (db.gamePlayers gid).any (fun p => decide (p.player_order = 0))
                  then 1 else 0⟩ = true
            · rw [if_pos hviol] at h; cases h
            · rw [if_neg hviol] at h
              rw [Bool.not_eq_true] at hviol
              refine ⟨game, rfl, hw, ?_, by omega, ?_, ?_⟩
              · cases hou : db.getUser uid with
                | none => rw [hou] at hu; simp at hu
                | some u => rfl
              · intro p hp
                simp only [playerInsertViolation, List.any_eq_false] at hviol
                have hq := hviol p (List.mem_filter.mp hp).1
                have hpg : p.game_id = gid := by
                  have := (List.mem_filter.mp hp).2
                  simpa using this
                simp only [Bool.and_eq_true, Bool.or_eq_true, decide_eq_true_eq,
                  not_and, not_or] at hq
                exact (hq hpg).1
              · by_cases h2 : (db.gamePlayers gid).length + 1 = 2
                · rw [if_pos h2] at h
                  simp only [h2, if_true]
                  exact (Except.ok.inj h).symm
                · rw [if_neg h2] at h
                  simp only [h2, if_false]
                  exact (Except.ok.inj h).symm
    · simp only [hw, ne_eq, not_false_eq_true, if_true] at h
      cases h

/-- Claim C5: JoinMatch succeeds only on a Waiting match whose target user
exists, is not already seated (enforced at flush by `unique_game_user`),
with at most one seat occupied; on success (for a match that has its
creator in seat 0) the joiner takes seat 1, the match becomes InProgress
and the started timestamp is set. -/
theorem join_guards (db db' : DB) (gid uid now : Nat)
    (hne : db.gamePlayers gid ≠ [])
    (hseat : ∃ p0 ∈ db.gamePlayers gid, p0.player_order = 0)
    (h : join_game db gid uid now = Except.ok db') :
    ∃ game, db.getGame gid = some game ∧ game.status = GameStatus.waiting ∧
      (db.getUser uid).isSome = true ∧
      (∀ p ∈ db.gamePlayers gid, p.user_id ≠ uid) ∧
      (db.gamePlayers gid).length = 1 ∧
      db'.gamePlayers gid =
        db.gamePlayers gid ++ [⟨db.next_player_id, gid, uid, 1⟩] ∧
      (∀ g', db'.getGame gid = some g' →
        g'.status = GameStatus.in_progress ∧ g'.started_at = some now) := by
  obtain ⟨game, hg, hw, hu, hlen, hnew, hdb⟩ := join_game_ok_inv h
  have hlen1 : (db.gamePlayers gid).length = 1 := by
    have : (db.gamePlayers gid).length ≠ 0 := by
      intro h0
      exact hne (List.length_eq_zero.mp h0)
    omega
  have hany0 : (db.gamePlayers gid).any (fun p => decide (p.player_order = 0)) = true := by
    rw [List.any_eq_true]
    obtain ⟨p0, hp0, ho0⟩ := hseat
    exact ⟨p0, hp0, by simpa using ho0⟩
  rw [hany0] at hdb
  simp only [hlen1, if_true] at hdb
  subst hdb
  refine ⟨game, hg, hw, hu, hnew, hlen1, ?_, ?_⟩
  · show (db.players ++ [(⟨db.next_player_id, gid, uid, 1⟩ : PlayerRow)]).filter
        (fun p => decide (p.game_id = gid)) = _
    rw [List.filter_append]
    show db.gamePlayers gid ++ _ = _
    congr 1
    rw [List.filter_cons]
    simp
  · intro g' hg'
    rw [getGame_updateGame _ gid gid (fun g =>
      { g with status := GameStatus.in_progress, started_at := some now })
      (fun g => rfl)] at hg'
    have hgid : game.id = gid := (getGame_some hg).2
    rw [show DB.getGame { db with
        players := db.players ++ [⟨db.next_player_id, gid, uid, 1⟩],
        next_player_id := db.next_player_id + 1 } gid = db.getGame gid from rfl, hg] at hg'
    simp only [Option.map_some'] at hg'
    rw [if_pos hgid] at hg'
    cases Option.some.inj hg'
    exact ⟨rfl, rfl⟩

/-- A concrete Waiting match: alice created it and holds seat 0. -/
def waitingDb : DB :=
  ⟨[⟨1, "alice"⟩, ⟨2, "bob"⟩],
   [⟨1, GameStatus.waiting, none, 0, none, none⟩],
   [⟨1, 1, 1, 0⟩], [], 3, 2, 2, 1⟩

/-- Witness for C5: bob joins alice's waiting match and takes seat 1; the
match becomes InProgress with the started timestamp set. -/
theorem join_guards_witness :
    ∃ game, waitingDb.getGame 1 = some game ∧ game.status = GameStatus.waiting ∧
      (waitingDb.getUser 2).isSome = true ∧
      (∀ p ∈ waitingDb.gamePlayers 1, p.user_id ≠ 2) ∧
      (waitingDb.gamePlayers 1).length = 1 ∧
      (committedState waitingDb (join_game waitingDb 1 2 100)).gamePlayers 1 =
        waitingDb.gamePlayers 1 ++ [⟨waitingDb.next_player_id, 1, 2, 1⟩] ∧
      (∀ g', (committedState waitingDb (join_game waitingDb 1 2 100)).getGame 1 = some g' →
        g'.status = GameStatus.in_progress ∧ g'.started_at = some 100) :=
  join_guards waitingDb (committedState waitingDb (join_game waitingDb 1 2 100)) 1 2 100
    (by decide) (by decide) (by decide)

/-! ### Well-formedness of reachable stores -/

/-- The invariants a store reachable through the service maintains: unique
game ids, fresh id counters, the move log of every game dense on
`1..turn_no`, unique cells per game, all cells in range, and a winner only
on finished games. -/
def WF (db : DB) : Prop :=
  gamesNodup db ∧
  (∀ g ∈ db.games, g.id < db.next_game_id) ∧
  (∀ m ∈ db.moves, m.game_id < db.next_game_id) ∧
  (∀ p ∈ db.players, p.game_id < db.next_game_id) ∧
  (∀ g ∈ db.games,
    ((db.gameMoves g.id).map MoveRow.move_no).Perm (List.range' 1 g.turn_no)) ∧
  (∀ g ∈ db.games,
    ((db.gameMoves g.id).map (fun m => (m.row, m.col))).Nodup) ∧
  (∀ m ∈ db.moves, m.row < 3 ∧ m.col < 3) ∧
  (∀ g ∈ db.games, g.status ≠ GameStatus.finished → g.winner_id = none)

instance (db : DB) : Decidable (WF db) := by
  unfold WF gamesNodup DB.gameMoves
  infer_instance

/-- `turnCounter` equals the number of committed moves of the match,
derived from the dense-range invariant. -/
theorem turn_count_of_WF {db : DB} (h : WF db) :
    ∀ g ∈ db.games, g.turn_no = (db.gameMoves g.id).length := by
  intro g hg
  have h2 := (h.2.2.2.2.1 g hg).length_eq
  rw [List.length_map, List.length_range'] at h2
  omega

/-- Transfer of a per-game fact along an id- and counter-preserving row
transformation. -/
theorem forall_games_transfer {l : List GameRow} {f : GameRow → GameRow}
    (hfid : ∀ g, (f g).id = g.id) (hft : ∀ g, (f g).turn_no = g.turn_no)
    {P : Nat → Nat → Prop} (h : ∀ g ∈ l, P g.id g.turn_no) :
    ∀ g' ∈ l.map f, P g'.id g'.turn_no := by
  intro g' hg'
  obtain ⟨y, hy, rfl⟩ := List.mem_map.mp hg'
  rw [hfid, hft]
  exact h y hy

/-- Unique game ids survive any id-preserving row transformation. -/
theorem gamesNodup_map {l : List GameRow} {f : GameRow → GameRow}
    (hf : ∀ g, (f g).id = g.id) (h : (l.map GameRow.id).Nodup) :
    ((l.map f).map GameRow.id).Nodup := by
  rw [List.map_map]
  have hc : (GameRow.id ∘ f) = GameRow.id := funext hf
  rw [hc]
  exact h

/-- `updateGame` with a row update that keeps id and counter, and only
sets a winner on a finished row, preserves well-formedness. -/
theorem WF_updateGame {db : DB} {gid : Nat} (hwf : WF db) {f : GameRow → GameRow}
    (hfid : ∀ g, (f g).id = g.id) (hft : ∀ g, (f g).turn_no = g.turn_no)
    (hfs : ∀ g ∈ db.games, g.id = gid →
      ((f g).status = GameStatus.finished ∨ (f g).winner_id = none)) :
    WF (db.updateGame gid f) := by
  obtain ⟨hnd, hgf, hmf, hpf, hdense, hcells, hbounds, hwn⟩ := hwf
  have hfid' : ∀ g, ((fun g => if g.id = gid then f g else g) g).id = g.id := by
    intro g
    by_cases hgg : g.id = gid <;> simp [hgg, hfid]
  have hft' : ∀ g, ((fun g => if g.id = gid then f g else g) g).turn_no = g.turn_no := by
    intro g
    by_cases hgg : g.id = gid <;> simp [hgg, hft]
  refine ⟨?_, ?_, hmf, hpf, ?_, ?_, hbounds, ?_⟩
  · exact gamesNodup_map hfid' hnd
  · exact forall_games_transfer hfid' hft'
      (P := fun i _ => i < db.next_game_id) (fun g hg => hgf g hg)
  · exact forall_games_transfer hfid' hft'
      (P := fun i t =>
        ((db.moves.filter (fun m => decide (m.game_id = i))).map MoveRow.move_no).Perm
          (List.range' 1 t)) hdense
  · exact forall_games_transfer hfid' hft'
      (P := fun i _ =>
        ((db.moves.filter (fun m => decide (m.game_id = i))).map
          (fun m => (m.row, m.col))).Nodup) hcells
  · intro g' hg'
    obtain ⟨y, hy, rfl⟩ := List.mem_map.mp hg'
    by_cases hgg : y.id = gid
    · simp only [hgg, if_true]
      intro hst
      rcases hfs y hy hgg with hfin | hnone
      · exact absurd hfin hst
      · exact hnone
    · simp only [hgg, if_false]
      exact hwn y hy

/-- `create_user` touches only the users table. -/
theorem WF_create_user {db : DB} {name : String} {r : Nat × DB}
    (hwf : WF db) (h : create_user db name = Except.ok r) : WF r.2 := by
  unfold create_user at h
  obtain rfl := Except.ok.inj h
  exact hwf

/-- `create_game` inserts a fresh Waiting game with counter 0 and its
creator seat; well-formedness is preserved. -/
theorem WF_create_game {db : DB} {cid : Nat} {gid' : Nat} {db' : DB}
    (hwf : WF db) (h : create_game db cid = Except.ok (gid', db')) : WF db' := by
  obtain ⟨hnd, hgf, hmf, hpf, hdense, hcells, hbounds, hwn⟩ := hwf
  unfold create_game at h
  cases hu : db.getUser cid with
  | none => rw [hu] at h; cases h
  | some u =>
    rw [hu] at h
    injection Except.ok.inj h with h1 h2
    subst h1
    subst h2
    have hfresh : ∀ m ∈ db.moves, ¬ m.game_id = db.next_game_id := by
      intro m hm he
      have := hmf m hm
      omega
    have hempty : db.moves.filter
        (fun m => decide (m.game_id = db.next_game_id)) = [] := by
      rw [List.filter_eq_nil_iff]
      intro m hm
      simp [hfresh m hm]
    refine ⟨?_, ?_, ?_, ?_, ?_, ?_, hbounds, ?_⟩
    · show ((db.games ++ [_]).map GameRow.id).Nodup
      rw [List.map_append, List.nodup_append]
      refine ⟨hnd, by simp, ?_⟩
      intro x hx
      obtain ⟨g, hg, rfl⟩ := List.mem_map.mp hx
      have := hgf g hg
      show g.id ∉ List.map GameRow.id
        [⟨db.next_game_id, GameStatus.waiting, none, 0, none, none⟩]
      simp only [List.map_cons, List.map_nil, List.mem_singleton]
      show ¬ g.id = db.next_game_id
      omega
    · intro g hg
      show g.id < db.next_game_id + 1
      rcases List.mem_append.mp hg with hold | hnew
      · have := hgf g hold
        omega
      · simp only [List.mem_singleton] at hnew
        subst hnew
        show db.next_game_id < db.next_game_id + 1
        omega
    · intro m hm
      show m.game_id < db.next_game_id + 1
      have := hmf m hm
      omega
    · intro p hp
      show p.game_id < db.next_game_id + 1
      rcases List.mem_append.mp hp with hold | hnew
      · have := hpf p hold
        omega
      · simp only [List.mem_singleton] at hnew
        subst hnew
        show db.next_game_id < db.next_game_id + 1
        omega
    · intro g hg
      rcases List.mem_append.mp hg with hold | hnew
      · exact hdense g hold
      · simp only [List.mem_singleton] at hnew
        subst hnew
        show ((db.moves.filter _).map MoveRow.move_no).Perm (List.range' 1 0)
        rw [hempty]
        rfl
    · intro g hg
      rcases List.mem_append.mp hg with hold | hnew
      · exact hcells g hold
      · simp only [List.mem_singleton] at hnew
        subst hnew
        show ((db.moves.filter _).map (fun m => (m.row, m.col))).Nodup
        rw [hempty]
        exact List.nodup_nil
    · intro g hg
      rcases List.mem_append.mp hg with hold | hnew
      · exact hwn g hold
      · simp only [List.mem_singleton] at hnew
        subst hnew
        intro _
        rfl

/-- `join_game` inserts a seat and possibly flips the match to InProgress;
well-formedness is preserved. -/
theorem WF_join {db db' : DB} {gid uid now : Nat} (hwf : WF db)
    (h : join_game db gid uid now = Except.ok db') : WF db' := by
  obtain ⟨game, hg, hwstat, _, _, _, hdb⟩ := join_game_ok_inv h
  have hgid := (getGame_some hg).2
  have hgmem := (getGame_some hg).1
  simp only at hdb
  obtain ⟨hnd, hgf, hmf, hpf, hdense, hcells, hbounds, hwn⟩ := hwf
  have hplayers : ∀ (k : Nat),
      WF { db with
        players := db.players ++ [⟨db.next_player_id, gid, uid, k⟩],
        next_player_id := db.next_player_id + 1 } := by
    intro k
    refine ⟨hnd, hgf, hmf, ?_, hdense, hcells, hbounds, hwn⟩
    intro p hp
    rcases List.mem_append.mp hp with hold | hnew
    · exact hpf p hold
    · simp only [List.mem_singleton] at hnew
      subst hnew
      show gid < db.next_game_id
      rw [← hgid]
      exact hgf game hgmem
  by_cases h2 : (db.gamePlayers gid).length + 1 = 2
  · rw [if_pos h2] at hdb
    subst hdb
    refine WF_updateGame (hplayers _) ?_ ?_ ?_
    · intro g
      rfl
    · intro g
      rfl
    intro g hgm hgi
    right
    show g.winner_id = none
    have hge : g = game :=
      List.inj_on_of_nodup_map hnd hgm hgmem (by rw [hgi, hgid])
    subst hge
    apply hwn g hgm
    rw [hwstat]
    intro hx
    cases hx
  · rw [if_neg h2] at hdb
    subst hdb
    exact hplayers _

/-- The terminal transition never touches the move log. -/
theorem finishState_moves (db2 : DB) (gid t now : Nat) (b : Board) :
    (finishState db2 gid t now b).moves = db2.moves := by
  unfold finishState
  split_ifs <;> rfl

/-- The terminal transition never touches the seats. -/
theorem finishState_players (db2 : DB) (gid t now : Nat) (b : Board) :
    (finishState db2 gid t now b).players = db2.players := by
  unfold finishState
  split_ifs <;> rfl

/-- Reading the game back through the terminal transition: id and counter
are untouched. -/
theorem getGame_finishState {db2 : DB} {gid t now : Nat} {b : Board} {g2 : GameRow}
    (h : db2.getGame gid = some g2) :
    ∃ g', (finishState db2 gid t now b).getGame gid = some g' ∧
      g'.turn_no = g2.turn_no ∧ g'.id = g2.id := by
  unfold finishState
  split_ifs with hw h9
  · rw [getGame_updateGame db2 gid gid (fun g =>
      { g with status := GameStatus.finished, winner_id := find_winner b,
               completed_at := some now }) (fun g => rfl), h, Option.map_some']
    refine ⟨_, rfl, ?_, ?_⟩ <;> by_cases hm : g2.id = gid <;> simp [hm]
  · rw [getGame_updateGame db2 gid gid (fun g =>
      { g with status := GameStatus.finished, completed_at := some now })
      (fun g => rfl), h, Option.map_some']
    refine ⟨_, rfl, ?_, ?_⟩ <;> by_cases hm : g2.id = gid <;> simp [hm]
  · exact ⟨g2, h, rfl, rfl⟩

/-- Transfer of a per-game id fact along an id-preserving row
transformation. -/
theorem forall_games_transfer_id {l : List GameRow} {f : GameRow → GameRow}
    (hfid : ∀ g, (f g).id = g.id) {P : Nat → Prop} (h : ∀ g ∈ l, P g.id) :
    ∀ g' ∈ l.map f, P g'.id := by
  intro g' hg'
  obtain ⟨y, hy, rfl⟩ := List.mem_map.mp hg'
  rw [hfid]
  exact h y hy

/-- A committed move preserves well-formedness; it appends exactly one
Move row, carrying `move_no = expectedTurn + 1` and an in-range cell, and
advances the claimed game's counter by exactly one. -/
theorem WF_move {db db' : DB} {gid uid row col now : Nat} (hwf : WF db)
    (h : move db gid uid row col now = Except.ok db') :
    WF db' ∧
    ∃ g, db.getGame gid = some g ∧ g.status = GameStatus.in_progress ∧
      db'.moves = db.moves ++ [⟨db.next_move_id, gid, uid, row, col, g.turn_no + 1⟩] ∧
      db'.players = db.players ∧
      row < 3 ∧ col < 3 ∧
      (∃ g', db'.getGame gid = some g' ∧ g'.turn_no = g.turn_no + 1) := by
  obtain ⟨g, hg, hs, hp, ho, hsub⟩ := move_ok_inv h
  obtain ⟨h1, h2, h3, b, hcb, hdb'⟩ := submitClaimed_ok_inv hsub
  have hgid := (getGame_some hg).2
  have hgmem := (getGame_some hg).1
  obtain ⟨hnd, hgf, hmf, hpf, hdense, hcells, hbounds, hwn⟩ := hwf
  have hA_moves : (afterInsert db gid uid row col g.turn_no).moves =
      db.moves ++ [(⟨db.next_move_id, gid, uid, row, col, g.turn_no + 1⟩ : MoveRow)] := rfl
  -- the new row is part of the reconstruction input, so its cell is in range
  have hordmem : (⟨db.next_move_id, gid, uid, row, col, g.turn_no + 1⟩ : MoveRow) ∈
      (afterInsert db gid uid row col g.turn_no).orderedMoves gid := by
    rw [DB.orderedMoves, List.mem_insertionSort, DB.gameMoves, hA_moves, List.mem_filter]
    refine ⟨List.mem_append_right _ (by simp), by simp⟩
  have hCA := constructAux_inv _ _ _ emptyBoard_shape hcb
  have hnb : row < 3 ∧ col < 3 := hCA.1 _ hordmem
  -- the filter over the appended log splits
  have hfilt_pos : (db.moves ++
      [(⟨db.next_move_id, gid, uid, row, col, g.turn_no + 1⟩ : MoveRow)]).filter
        (fun m => decide (m.game_id = gid)) =
      db.gameMoves gid ++
        [(⟨db.next_move_id, gid, uid, row, col, g.turn_no + 1⟩ : MoveRow)] := by
    rw [List.filter_append]
    congr 1
    simp
  have hfilt_neg : ∀ i : Nat, i ≠ gid → (db.moves ++
      [(⟨db.next_move_id, gid, uid, row, col, g.turn_no + 1⟩ : MoveRow)]).filter
        (fun m => decide (m.game_id = i)) =
      db.moves.filter (fun m => decide (m.game_id = i)) := by
    intro i hi
    rw [List.filter_append]
    have hsingle : List.filter (fun m => decide (m.game_id = i))
        [(⟨db.next_move_id, gid, uid, row, col, g.turn_no + 1⟩ : MoveRow)] = [] := by
      rw [List.filter_eq_nil_iff]
      intro m hm
      simp only [List.mem_singleton] at hm
      subst hm
      simp only [decide_eq_true_eq]
      show ¬ gid = i
      exact fun he => hi he.symm
    rw [hsingle, List.append_nil]
  -- the appended range
  have hrange : List.range' 1 (g.turn_no + 1) =
      List.range' 1 g.turn_no ++ [g.turn_no + 1] := by
    rw [List.range'_concat]
    congr 1
    simp [Nat.add_comm]
  -- the new cell is fresh in this game
  have hnotin : ((db.gameMoves gid).map (fun m => (m.row, m.col))).Disjoint
      [((row : Nat), (col : Nat))] := by
    intro rc hrc hrc2
    simp only [List.mem_singleton] at hrc2
    subst hrc2
    obtain ⟨m, hm, hme⟩ := List.mem_map.mp hrc
    rw [List.filter_eq_nil_iff] at h2
    have hm2 := List.mem_filter.mp hm
    have hno := h2 m hm2.1
    simp only [Bool.and_eq_true, decide_eq_true_eq, not_and] at hno
    have hmg : m.game_id = gid := by simpa using hm2.2
    have hmr : m.row = row := congrArg Prod.fst hme
    have hmc : m.col = col := congrArg Prod.snd hme
    exact hno ⟨hmg, hmr⟩ hmc
  -- well-formedness of the tentative store
  have hWFA : WF (afterInsert db gid uid row col g.turn_no) := by
    refine ⟨?_, ?_, ?_, hpf, ?_, ?_, ?_, ?_⟩
    · exact gamesNodup_map (fun x => by show (if _ ∧ _ then _ else _ : GameRow).id = x.id; split <;> rfl) hnd
    · exact forall_games_transfer_id (fun x => by show (if _ ∧ _ then _ else _ : GameRow).id = x.id; split <;> rfl)
        (P := fun i => i < db.next_game_id) hgf
    · intro m hm
      rw [hA_moves] at hm
      rcases List.mem_append.mp hm with hold | hnew
      · exact hmf m hold
      · simp only [List.mem_singleton] at hnew
        subst hnew
        show gid < db.next_game_id
        rw [← hgid]
        exact hgf g hgmem
    · intro g' hg'
      obtain ⟨y, hy, hyeq⟩ := List.mem_map.mp hg'
      by_cases hyi : y.id = gid
      · have hyg : y = g := List.inj_on_of_nodup_map hnd hy hgmem (by rw [hyi, hgid])
        subst hyg
        have hyeq2 : g' = { y with turn_no := y.turn_no + 1 } := by
          rw [← hyeq]
          exact if_pos ⟨hyi, rfl⟩
        subst hyeq2
        show ((((afterInsert db gid uid row col y.turn_no).moves).filter
            (fun m => decide (m.game_id = y.id))).map MoveRow.move_no).Perm
          (List.range' 1 (y.turn_no + 1))
        rw [hA_moves, hyi, hfilt_pos, List.map_append, hrange]
        have hd2 := hdense y hy
        rw [hyi] at hd2
        exact hd2.append_right _
      · have hyeq2 : y = g' := by
          rw [← hyeq]
          exact (if_neg (fun hc => hyi hc.1)).symm
        subst hyeq2
        show ((((afterInsert db gid uid row col g.turn_no).moves).filter
            (fun m => decide (m.game_id = y.id))).map MoveRow.move_no).Perm
          (List.range' 1 y.turn_no)
        rw [hA_moves, hfilt_neg y.id hyi]
        exact hdense y hy
    · intro g' hg'
      obtain ⟨y, hy, hyeq⟩ := List.mem_map.mp hg'
      by_cases hyi : y.id = gid
      · have hyg : y = g := List.inj_on_of_nodup_map hnd hy hgmem (by rw [hyi, hgid])
        subst hyg
        have hyeq2 : g' = { y with turn_no := y.turn_no + 1 } := by
          rw [← hyeq]
          exact if_pos ⟨hyi, rfl⟩
        subst hyeq2
        show ((((afterInsert db gid uid row col y.turn_no).moves).filter
            (fun m => decide (m.game_id = y.id))).map (fun m => (m.row, m.col))).Nodup
        rw [hA_moves, hyi, hfilt_pos, List.map_append, List.nodup_append]
        have hc2 := hcells y hy
        rw [hyi] at hc2
        exact ⟨hc2, by simp, by simpa using hnotin⟩
      · have hyeq2 : y = g' := by
          rw [← hyeq]
          exact (if_neg (fun hc => hyi hc.1)).symm
        subst hyeq2
        show ((((afterInsert db gid uid row col g.turn_no).moves).filter
            (fun m => decide (m.game_id = y.id))).map (fun m => (m.row, m.col))).Nodup
        rw [hA_moves, hfilt_neg y.id hyi]
        exact hcells y hy
    · intro m hm
      rw [hA_moves] at hm
      rcases List.mem_append.mp hm with hold | hnew
      · exact hbounds m hold
      · simp only [List.mem_singleton] at hnew
        subst hnew
        exact hnb
    · intro g' hg'
      obtain ⟨y, hy, hyeq⟩ := List.mem_map.mp hg'
      by_cases hyc : y.id = gid ∧ y.turn_no = g.turn_no
      · have hyeq2 : g' = { y with turn_no := y.turn_no + 1 } := by
          rw [← hyeq]
          exact if_pos hyc
        subst hyeq2
        show y.status ≠ GameStatus.finished → y.winner_id = none
        exact hwn y hy
      · have hyeq2 : y = g' := by
          rw [← hyeq]
          exact (if_neg hyc).symm
        subst hyeq2
        exact hwn y hy
  -- the claimed game read back from the tentative store
  have hgA : (afterInsert db gid uid row col g.turn_no).getGame gid =
      some { g with turn_no := g.turn_no + 1 } := by
    show (claimTurn db gid g.turn_no).2.getGame gid = _
    rw [getGame_claimTurn, hg, Option.map_some']
    rw [if_pos ⟨hgid, rfl⟩]
  subst hdb'
  constructor
  · unfold finishState
    split_ifs with hw h9
    · exact WF_updateGame hWFA (fun x => rfl) (fun x => rfl) (fun x _ _ => Or.inl rfl)
    · exact WF_updateGame hWFA (fun x => rfl) (fun x => rfl) (fun x _ _ => Or.inl rfl)
    · exact hWFA
  · refine ⟨g, hg, hs, ?_, ?_, hnb.1, hnb.2, ?_⟩
    · rw [finishState_moves]
      exact hA_moves
    · rw [finishState_players]
      rfl
    · obtain ⟨g', hg', ht', _⟩ := getGame_finishState hgA
      exact ⟨g', hg', ht'⟩

/-! ### Claim C1 -/

/-- Claim C1: for every match, `turnCounter` equals the number of
committed Move records, always — it holds in any well-formed store and is
preserved by every service operation — and every accepted move advances
the counter of its match by exactly one while appending exactly one Move
record for it. -/
theorem turn_counter_counts_moves (db : DB) (hwf : WF db) :
    (∀ g ∈ db.games, g.turn_no = (db.gameMoves g.id).length) ∧
    (∀ name r, create_user db name = Except.ok r →
      ∀ g ∈ r.2.games, g.turn_no = (r.2.gameMoves g.id).length) ∧
    (∀ cid gid' db2, create_game db cid = Except.ok (gid', db2) →
      ∀ g ∈ db2.games, g.turn_no = (db2.gameMoves g.id).length) ∧
    (∀ gid uid now db2, join_game db gid uid now = Except.ok db2 →
      ∀ g ∈ db2.games, g.turn_no = (db2.gameMoves g.id).length) ∧
    (∀ gid uid row col now db2, move db gid uid row col now = Except.ok db2 →
      (∀ g ∈ db2.games, g.turn_no = (db2.gameMoves g.id).length) ∧
      ∃ g g', db.getGame gid = some g ∧ db2.getGame gid = some g' ∧
        g'.turn_no = g.turn_no + 1 ∧
        (db2.gameMoves gid).length = (db.gameMoves gid).length + 1) := by
  refine ⟨turn_count_of_WF hwf, ?_, ?_, ?_, ?_⟩
  · intro name r h
    exact turn_count_of_WF (WF_create_user hwf h)
  · intro cid gid' db2 h
    exact turn_count_of_WF (WF_create_game hwf h)
  · intro gid uid now db2 h
    exact turn_count_of_WF (WF_join hwf h)
  · intro gid uid row col now db2 h
    obtain ⟨hwf2, g, hg, _, hmoves, _, _, _, g', hg', ht'⟩ := WF_move hwf h
    refine ⟨turn_count_of_WF hwf2, g, g', hg, hg', ht', ?_⟩
    rw [DB.gameMoves, hmoves, List.filter_append, List.length_append]
    rw [show (List.filter (fun m => decide (m.game_id = gid))
      [(⟨db.next_move_id, gid, uid, row, col, g.turn_no + 1⟩ : MoveRow)]).length = 1
      from by simp]
    rfl

/-- Witness for C1 on the concrete store `sampleDb`, instantiated at its
only game row: the stored counter 0 equals the match's move count. -/
theorem turn_counter_counts_moves_witness :
    (⟨1, GameStatus.in_progress, none, 0, some 100, none⟩ : GameRow).turn_no =
      (sampleDb.gameMoves
        (⟨1, GameStatus.in_progress, none, 0, some 100, none⟩ : GameRow).id).length :=
  (turn_counter_counts_moves sampleDb (by decide)).1
    ⟨1, GameStatus.in_progress, none, 0, some 100, none⟩ (by decide)

/-! ### Claim C4 -/

/-- Counterexample to C4 as stated: the first accepted move of the fresh
match `sampleDb` claims `expectedTurn = 0` but is stored with
`moveIndex = 1`; with `turnCounter = 1` after the move, the match's move
indexes are `[1]` — the dense sequence `1..turnCounter` — and not
`[0] = 0..turnCounter-1` as the claim requires. -/
theorem move_index_counterexample :
    (∃ db', move sampleDb 1 1 0 0 200 = Except.ok db') ∧
    (committedState sampleDb (move sampleDb 1 1 0 0 200)).moves.map MoveRow.move_no
      = [1] ∧
    ((committedState sampleDb (move sampleDb 1 1 0 0 200)).getGame 1).map
      GameRow.turn_no = some 1 ∧
    (committedState sampleDb (move sampleDb 1 1 0 0 200)).moves.map MoveRow.move_no
      ≠ [0] := by
  refine ⟨⟨committedState sampleDb (move sampleDb 1 1 0 0 200), by decide⟩,
    by decide, by decide, by decide⟩

/-- Claim C4 (amended): every accepted move stores
`moveIndex = expectedTurn + 1`, and for every match the moveIndexes of its
committed moves form the dense sequence `1..turnCounter`, with no
duplicate moveIndex and no duplicate cell; the invariant is preserved by
every accepted move. -/
theorem move_index_dense (db : DB) (hwf : WF db) :
    (∀ g ∈ db.games,
      ((db.gameMoves g.id).map MoveRow.move_no).Perm (List.range' 1 g.turn_no) ∧
      ((db.gameMoves g.id).map MoveRow.move_no).Nodup ∧
      ((db.gameMoves g.id).map (fun m => (m.row, m.col))).Nodup) ∧
    (∀ gid uid row col now db2, move db gid uid row col now = Except.ok db2 →
      (∃ g, db.getGame gid = some g ∧ g.status = GameStatus.in_progress ∧
        db2.moves = db.moves ++
          [⟨db.next_move_id, gid, uid, row, col, g.turn_no + 1⟩]) ∧
      (∀ g ∈ db2.games,
        ((db2.gameMoves g.id).map MoveRow.move_no).Perm (List.range' 1 g.turn_no) ∧
        ((db2.gameMoves g.id).map MoveRow.move_no).Nodup ∧
        ((db2.gameMoves g.id).map (fun m => (m.row, m.col))).Nodup)) := by
  have pack : ∀ dbx : DB, WF dbx → ∀ g ∈ dbx.games,
      ((dbx.gameMoves g.id).map MoveRow.move_no).Perm (List.range' 1 g.turn_no) ∧
      ((dbx.gameMoves g.id).map MoveRow.move_no).Nodup ∧
      ((dbx.gameMoves g.id).map (fun m => (m.row, m.col))).Nodup := by
    intro dbx hx g hg
    obtain ⟨_, _, _, _, hdense, hcells, _, _⟩ := hx
    refine ⟨hdense g hg, ?_, hcells g hg⟩
    exact ((hdense g hg).nodup_iff).mpr (List.nodup_range' 1 g.turn_no)
  refine ⟨pack db hwf, ?_⟩
  intro gid uid row col now db2 h
  obtain ⟨hwf2, g, hg, hst, hmoves, _, _, _, _⟩ := WF_move hwf h
  exact ⟨⟨g, hg, hst, hmoves⟩, pack db2 hwf2⟩

/-- Witness for the amended C4 on the concrete store `occupiedDb`,
instantiated at its only game row: the move indexes are a permutation of
`1..turnCounter` and the indexes and cells carry no duplicates. -/
theorem move_index_dense_witness :
    ((occupiedDb.gameMoves
        (⟨1, GameStatus.in_progress, none, 1, some 100, none⟩ : GameRow).id).map
      MoveRow.move_no).Perm
        (List.range' 1
          (⟨1, GameStatus.in_progress, none, 1, some 100, none⟩ : GameRow).turn_no) ∧
    ((occupiedDb.gameMoves
        (⟨1, GameStatus.in_progress, none, 1, some 100, none⟩ : GameRow).id).map
      MoveRow.move_no).Nodup ∧
    ((occupiedDb.gameMoves
        (⟨1, GameStatus.in_progress, none, 1, some 100, none⟩ : GameRow).id).map
      (fun m => (m.row, m.col))).Nodup :=
  (move_index_dense occupiedDb (by decide)).1
    ⟨1, GameStatus.in_progress, none, 1, some 100, none⟩ (by decide)

/-! ### Claim C6: the draw outcome -/

/-- At most 9 pairwise distinct in-range cells exist. -/
theorem cells_card_le (l : List (Nat × Nat)) (hnd : l.Nodup)
    (hb : ∀ x ∈ l, x.1 < 3 ∧ x.2 < 3) : l.length ≤ 9 := by
  have hsub : l.toFinset ⊆ Finset.range 3 ×ˢ Finset.range 3 := by
    intro x hx
    rw [List.mem_toFinset] at hx
    rw [Finset.mem_product, Finset.mem_range, Finset.mem_range]
    exact hb x hx
  have hcard := Finset.card_le_card hsub
  rw [List.toFinset_card_of_nodup hnd] at hcard
  simpa using hcard

/-- 9 pairwise distinct in-range cells cover the whole grid. -/
theorem cells_cover (l : List (Nat × Nat)) (hnd : l.Nodup)
    (hb : ∀ x ∈ l, x.1 < 3 ∧ x.2 < 3) (hlen : l.length = 9) :
    ∀ r c, r < 3 → c < 3 → (r, c) ∈ l := by
  have hsub : l.toFinset ⊆ Finset.range 3 ×ˢ Finset.range 3 := by
    intro x hx
    rw [List.mem_toFinset] at hx
    rw [Finset.mem_product, Finset.mem_range, Finset.mem_range]
    exact hb x hx
  have heq : l.toFinset = Finset.range 3 ×ˢ Finset.range 3 :=
    Finset.eq_of_subset_of_card_le hsub
      (by rw [List.toFinset_card_of_nodup hnd, hlen]; simp)
  intro r c hr hc
  rw [← List.mem_toFinset, heq, Finset.mem_product, Finset.mem_range, Finset.mem_range]
  exact ⟨hr, hc⟩

/-- Claim C6: if the accepted move is the match's 9th and completes no
line, the match finishes with the completed timestamp set and no winner;
and a finished, winnerless outcome arises only when no triple wins and
all 9 cells of the reconstructed board are filled (`turnCounter = 9`). -/
theorem draw_outcome (db db2 : DB) (hwf : WF db) (gid uid row col now : Nat)
    (h : move db gid uid row col now = Except.ok db2)
    (g' : GameRow) (hg' : db2.getGame gid = some g') :
    (∀ b, construct_board (db2.orderedMoves gid) = Except.ok b →
      find_winner b = none → g'.turn_no = 9 →
      g'.status = GameStatus.finished ∧ g'.completed_at = some now ∧
        g'.winner_id = none) ∧
    (g'.status = GameStatus.finished → g'.winner_id = none →
      g'.turn_no = 9 ∧
      ∀ b, construct_board (db2.orderedMoves gid) = Except.ok b →
        find_winner b = none ∧
        (∀ r c, r < 3 → c < 3 → cellAt b (r, c) ≠ none)) := by
  obtain ⟨g, hg, hs, hp, ho, hsub⟩ := move_ok_inv h
  obtain ⟨h1, h2, h3, b0, hcb, hdb2⟩ := submitClaimed_ok_inv hsub
  obtain ⟨hwf2, gx, hgx, _, hmoves2, _, _, _, _⟩ := WF_move hwf h
  rw [hg] at hgx
  obtain rfl := Option.some.inj hgx
  have hgid := (getGame_some hg).2
  have hwinner : g.winner_id = none := by
    obtain ⟨_, _, _, _, _, _, _, hwn⟩ := hwf
    apply hwn g (getGame_some hg).1
    rw [hs]
    intro hx
    cases hx
  -- the reconstruction input of the committed store is that of the
  -- tentative store
  have homv : db2.orderedMoves gid =
      (afterInsert db gid uid row col g.turn_no).orderedMoves gid := by
    unfold DB.orderedMoves DB.gameMoves
    rw [show db2.moves = (afterInsert db gid uid row col g.turn_no).moves from by
      rw [hdb2, finishState_moves]]
  have hgA : (afterInsert db gid uid row col g.turn_no).getGame gid =
      some { g with turn_no := g.turn_no + 1 } := by
    show (claimTurn db gid g.turn_no).2.getGame gid = _
    rw [getGame_claimTurn, hg, Option.map_some']
    rw [if_pos ⟨hgid, rfl⟩]
  -- the dense/cell invariants of the committed store at this match
  have hg'mem := (getGame_some hg').1
  have hg'id := (getGame_some hg').2
  obtain ⟨_, _, _, _, hdense2, hcells2, hbounds2, _⟩ := hwf2
  have hlen2 : (db2.gameMoves gid).length = g'.turn_no := by
    have hh := (hdense2 g' hg'mem).length_eq
    rw [List.length_map, List.length_range'] at hh
    rw [← hg'id]
    exact hh
  have hcellnd : ((db2.gameMoves gid).map (fun m => (m.row, m.col))).Nodup := by
    have := hcells2 g' hg'mem
    rw [hg'id] at this
    exact this
  have hcellbound : ∀ x ∈ (db2.gameMoves gid).map (fun m => (m.row, m.col)),
      x.1 < 3 ∧ x.2 < 3 := by
    intro x hx
    obtain ⟨m, hm, rfl⟩ := List.mem_map.mp hx
    exact hbounds2 m (List.mem_filter.mp hm).1
  -- read the committed game row through the terminal transition
  rw [hdb2] at hg'
  unfold finishState at hg'
  constructor
  · -- forward: ninth accepted move, no line
    intro b hb hfw ht9
    rw [homv, hcb] at hb
    obtain rfl : b0 = b := Except.ok.inj hb
    split_ifs at hg' with hw h9
    · rw [hfw] at hw
      cases hw
    · rw [getGame_updateGame _ gid gid (fun x =>
        { x with status := GameStatus.finished, completed_at := some now })
        (fun x => rfl), hgA, Option.map_some'] at hg'
      rw [if_pos (show ({ g with turn_no := g.turn_no + 1 } : GameRow).id = gid from hgid)]
        at hg'
      cases Option.some.inj hg'
      exact ⟨rfl, rfl, hwinner⟩
    · -- no terminal branch: then the counter is below 9, contradiction
      rw [hgA] at hg'
      cases Option.some.inj hg'
      exact absurd ht9 (by show ¬ g.turn_no + 1 = 9; omega)
  · -- only-when direction
    intro hfin hnowin
    split_ifs at hg' with hw h9
    · -- a winner was found: contradicts the absent winner
      rw [getGame_updateGame _ gid gid (fun x =>
        { x with status := GameStatus.finished, winner_id := find_winner b0,
                 completed_at := some now })
        (fun x => rfl), hgA, Option.map_some'] at hg'
      rw [if_pos (show ({ g with turn_no := g.turn_no + 1 } : GameRow).id = gid from hgid)]
        at hg'
      cases Option.some.inj hg'
      have hnone : find_winner b0 = none := hnowin
      rw [hnone] at hw
      cases hw
    · -- the draw branch
      rw [getGame_updateGame _ gid gid (fun x =>
        { x with status := GameStatus.finished, completed_at := some now })
        (fun x => rfl), hgA, Option.map_some'] at hg'
      rw [if_pos (show ({ g with turn_no := g.turn_no + 1 } : GameRow).id = gid from hgid)]
        at hg'
      cases Option.some.inj hg'
      have hle : g.turn_no + 1 ≤ 9 := by
        have := cells_card_le _ hcellnd hcellbound
        rw [List.length_map, hlen2] at this
        exact this
      have ht9 : g.turn_no + 1 = 9 := by omega
      refine ⟨ht9, ?_⟩
      intro b hb
      rw [homv, hcb] at hb
      obtain rfl : b0 = b := Except.ok.inj hb
      refine ⟨by rwa [Option.not_isSome_iff_eq_none] at hw, ?_⟩
      intro r c hr hc
      have hcov := cells_cover _ hcellnd hcellbound
        (by rw [List.length_map, hlen2]; exact ht9) r c hr hc
      obtain ⟨m, hm, hme⟩ := List.mem_map.mp hcov
      have hCA := constructAux_inv _ _ _ emptyBoard_shape hcb
      apply hCA.2.2
      right
      refine ⟨m, ?_, congrArg Prod.fst hme, congrArg Prod.snd hme⟩
      rw [← homv]
      rw [DB.orderedMoves, List.mem_insertionSort]
      exact hm
    · -- no terminal branch: the match is still in progress
      rw [hgA] at hg'
      cases Option.some.inj hg'
      have hfin2 : g.status = GameStatus.finished := hfin
      rw [hs] at hfin2
      cases hfin2

/-- A match after 8 alternating non-winning moves of the standard draw
pattern; alice is about to place the 9th mark at (2,2). -/
def drawDb : DB :=
  ⟨[⟨1, "alice"⟩, ⟨2, "bob"⟩],
   [⟨1, GameStatus.in_progress, none, 8, some 100, none⟩],
   [⟨1, 1, 1, 0⟩, ⟨2, 1, 2, 1⟩],
   [⟨1, 1, 1, 0, 0, 1⟩, ⟨2, 1, 2, 0, 1, 2⟩, ⟨3, 1, 1, 0, 2, 3⟩, ⟨4, 1, 2, 1, 1, 4⟩,
    ⟨5, 1, 1, 1, 0, 5⟩, ⟨6, 1, 2, 1, 2, 6⟩, ⟨7, 1, 1, 2, 1, 7⟩, ⟨8, 1, 2, 2, 0, 8⟩],
   3, 2, 3, 9⟩

/-- Witness for C6: alice's 9th move on `drawDb` completes no line; the
match finishes with winnerId absent and the completed timestamp set. -/
theorem draw_outcome_witness :
    (∀ b, construct_board
        ((committedState drawDb (move drawDb 1 1 2 2 200)).orderedMoves 1) =
          Except.ok b →
      find_winner b = none →
      (⟨1, GameStatus.finished, none, 9, some 100, some 200⟩ : GameRow).turn_no = 9 →
      (⟨1, GameStatus.finished, none, 9, some 100, some 200⟩ : GameRow).status =
          GameStatus.finished ∧
      (⟨1, GameStatus.finished, none, 9, some 100, some 200⟩ : GameRow).completed_at =
          some 200 ∧
      (⟨1, GameStatus.finished, none, 9, some 100, some 200⟩ : GameRow).winner_id =
          none) ∧
    ((⟨1, GameStatus.finished, none, 9, some 100, some 200⟩ : GameRow).status =
        GameStatus.finished →
      (⟨1, GameStatus.finished, none, 9, some 100, some 200⟩ : GameRow).winner_id =
        none →
      (⟨1, GameStatus.finished, none, 9, some 100, some 200⟩ : GameRow).turn_no = 9 ∧
      ∀ b, construct_board
          ((committedState drawDb (move drawDb 1 1 2 2 200)).orderedMoves 1) =
            Except.ok b →
        find_winner b = none ∧
        (∀ r c, r < 3 → c < 3 → cellAt b (r, c) ≠ none)) :=
  draw_outcome drawDb (committedState drawDb (move drawDb 1 1 2 2 200))
    (by decide) 1 1 2 2 200 (by decide)
    ⟨1, GameStatus.finished, none, 9, some 100, some 200⟩ (by decide)

/-! ### Claim C8: move guards, atomic rollback and in-bounds indexing -/

/-- Claim C8: SubmitMove (request validation plus `Service.move`) accepts
a move only when the match is InProgress, the mover holds the seat whose
parity matches `turnCounter % 2`, and row and col lie in `{0,1,2}`; any
failure commits nothing; and after an accepted move every stored cell is
in range, so the board reconstruction indexes only in bounds (it returns
a board rather than an IndexError). -/
theorem move_guards_and_bounds (db : DB) (hwf : WF db) (gid uid : Nat)
    (row col : Int) (now : Nat) :
    (∀ db2, moveEndpoint db gid uid row col now = Except.ok db2 →
      (∃ g, db.getGame gid = some g ∧ g.status = GameStatus.in_progress ∧
        orderDictGet (db.gamePlayers gid) (g.turn_no % 2) = some uid) ∧
      (0 ≤ row ∧ row ≤ 2 ∧ 0 ≤ col ∧ col ≤ 2) ∧
      (∀ m ∈ db2.moves, m.row < 3 ∧ m.col < 3) ∧
      (∃ b, construct_board (db2.orderedMoves gid) = Except.ok b)) ∧
    (∀ e, moveEndpoint db gid uid row col now = Except.error e →
      committedState db (moveEndpoint db gid uid row col now) = db) := by
  constructor
  · intro db2 h
    unfold moveEndpoint at h
    by_cases hv : moveRequestValid row col = true
    · rw [if_pos hv] at h
      obtain ⟨g, hg, hs, _, ho, _⟩ := move_ok_inv h
      obtain ⟨hwf2, _, _, _, _, _, _, _, _⟩ := WF_move hwf h
      obtain ⟨_, _, _, _, _, _, hbounds2, _⟩ := hwf2
      have hvb : 0 ≤ row ∧ row ≤ 2 ∧ 0 ≤ col ∧ col ≤ 2 := by
        rw [moveRequestValid] at hv
        simp only [Bool.and_eq_true, decide_eq_true_eq] at hv
        exact ⟨hv.1.1.1, hv.1.1.2, hv.1.2, hv.2⟩
      refine ⟨⟨g, hg, hs, ho⟩, hvb, hbounds2, ?_⟩
      have hb2 : ∀ m ∈ db2.orderedMoves gid, m.row < 3 ∧ m.col < 3 := by
        intro m hm
        rw [DB.orderedMoves, List.mem_insertionSort] at hm
        exact hbounds2 m (List.mem_filter.mp hm).1
      obtain ⟨b, hb, _⟩ := constructAux_ok _ _ emptyBoard_shape hb2
      exact ⟨b, hb⟩
    · rw [if_neg hv] at h
      cases h
  · intro e he
    rw [he]
    rfl

/-- Witness for C8 on `sampleDb` with the in-range request (0,0). -/
theorem move_guards_and_bounds_witness :
    (∀ db2, moveEndpoint sampleDb 1 1 0 0 200 = Except.ok db2 →
      (∃ g, sampleDb.getGame 1 = some g ∧ g.status = GameStatus.in_progress ∧
        orderDictGet (sampleDb.gamePlayers 1) (g.turn_no % 2) = some 1) ∧
      ((0 : Int) ≤ 0 ∧ (0 : Int) ≤ 2 ∧ (0 : Int) ≤ 0 ∧ (0 : Int) ≤ 2) ∧
      (∀ m ∈ db2.moves, m.row < 3 ∧ m.col < 3) ∧
      (∃ b, construct_board (db2.orderedMoves 1) = Except.ok b)) ∧
    (∀ e, moveEndpoint sampleDb 1 1 0 0 200 = Except.error e →
      committedState sampleDb (moveEndpoint sampleDb 1 1 0 0 200) = sampleDb) :=
  move_guards_and_bounds sampleDb (by decide) 1 1 0 0 200

/-! ### Claim C9: the efficiency leaderboard -/

/-- The efficiency sort key as a proposition. -/
theorem effLe_iff (db : DB) (a b : LeaderBoard) :
    effLe db a b = true ↔
      a.value < b.value ∨
        (a.value = b.value ∧
          (winsCount db b.user_id < winsCount db a.user_id ∨
            (winsCount db a.user_id = winsCount db b.user_id ∧
              a.user_id ≤ b.user_id))) := by
  unfold effLe
  simp

/-- The efficiency key is total. -/
theorem effLe_total (db : DB) :
    ∀ a b, effLe db a b = true ∨ effLe db b a = true := by
  intro a b
  rw [effLe_iff, effLe_iff]
  rcases lt_trichotomy a.value b.value with h | h | h
  · exact Or.inl (Or.inl h)
  · rcases lt_trichotomy (winsCount db a.user_id) (winsCount db b.user_id) with
      hw | hw | hw
    · exact Or.inr (Or.inr ⟨h.symm, Or.inl hw⟩)
    · rcases Nat.le_total a.user_id b.user_id with hu | hu
      · exact Or.inl (Or.inr ⟨h, Or.inr ⟨hw, hu⟩⟩)
      · exact Or.inr (Or.inr ⟨h.symm, Or.inr ⟨hw.symm, hu⟩⟩)
    · exact Or.inl (Or.inr ⟨h, Or.inl hw⟩)
  · exact Or.inr (Or.inl h)

/-- The efficiency key is transitive. -/
theorem effLe_trans (db : DB) :
    ∀ a b c, effLe db a b = true → effLe db b c = true → effLe db a c = true := by
  intro a b c hab hbc
  rw [effLe_iff] at hab hbc ⊢
  rcases hab with h1 | ⟨e1, w1⟩
  · rcases hbc with h2 | ⟨e2, _⟩
    · exact Or.inl (lt_trans h1 h2)
    · exact Or.inl (e2 ▸ h1)
  · rcases hbc with h2 | ⟨e2, w2⟩
    · exact Or.inl (e1 ▸ h2)
    · refine Or.inr ⟨e1.trans e2, ?_⟩
      rcases w1 with hw1 | ⟨ew1, u1⟩
      · rcases w2 with hw2 | ⟨ew2, _⟩
        · exact Or.inl (lt_trans hw2 hw1)
        · exact Or.inl (ew2 ▸ hw1)
      · rcases w2 with hw2 | ⟨ew2, u2⟩
        · exact Or.inl (ew1 ▸ hw2)
        · exact Or.inr ⟨ew1.trans ew2, le_trans u1 u2⟩

/-- Two distinct members of a list occur in one of the two orders. -/
theorem sublist_pair_of_mem {α : Type} {a b : α} :
    ∀ {l : List α}, a ∈ l → b ∈ l → a ≠ b →
      [a, b].Sublist l ∨ [b, a].Sublist l := by
  intro l
  induction l with
  | nil => intro ha; cases ha
  | cons x xs ih =>
    intro ha hb hne
    rcases List.mem_cons.mp ha with rfl | ha2
    · rcases List.mem_cons.mp hb with rfl | hb2
      · exact absurd rfl hne
      · exact Or.inl (List.Sublist.cons₂ _ (List.singleton_sublist.mpr hb2))
    · rcases List.mem_cons.mp hb with rfl | hb2
      · exact Or.inr (List.Sublist.cons₂ _ (List.singleton_sublist.mpr ha2))
      · rcases ih ha2 hb2 hne with h | h
        · exact Or.inl (h.cons _)
        · exact Or.inr (h.cons _)

/-- A cross-user scenario: user 1 won match 10 in 3 of their own moves,
user 2 won match 11 in 5 of their own moves; users 3 and 4 lost theirs. -/
def effScenarioDb : DB :=
  ⟨[⟨1, "A"⟩, ⟨2, "B"⟩, ⟨3, "C"⟩, ⟨4, "D"⟩],
   [⟨10, GameStatus.finished, some 1, 5, some 100, some 200⟩,
    ⟨11, GameStatus.finished, some 2, 9, some 100, some 200⟩],
   [⟨1, 10, 1, 0⟩, ⟨2, 10, 3, 1⟩, ⟨3, 11, 2, 0⟩, ⟨4, 11, 4, 1⟩],
   [⟨1, 10, 1, 0, 0, 1⟩, ⟨2, 10, 3, 1, 0, 2⟩, ⟨3, 10, 1, 0, 1, 3⟩,
    ⟨4, 10, 3, 1, 1, 4⟩, ⟨5, 10, 1, 0, 2, 5⟩,
    ⟨6, 11, 2, 0, 0, 6⟩, ⟨7, 11, 2, 0, 1, 7⟩, ⟨8, 11, 2, 0, 2, 8⟩,
    ⟨9, 11, 2, 1, 1, 9⟩, ⟨10, 11, 2, 2, 2, 10⟩],
   5, 12, 5, 11⟩

/-- Concrete evaluation of the efficiency board on the scenario store:
user 1 (average 3) ranks above user 2 (average 5). -/
theorem effScenario_eval :
    leaderboard effScenarioDb "efficiency" =
      LBResult.ranked [⟨1, 3, 1, 1⟩, ⟨2, 5, 1, 1⟩] := by
  have hAll : allUsers effScenarioDb = [3, 4, 1, 2] := by decide
  have hg1 : winnerMoveGroups effScenarioDb 1 = [(10, 3)] := by decide
  have hg2 : winnerMoveGroups effScenarioDb 2 = [(11, 5)] := by decide
  have hg3 : winnerMoveGroups effScenarioDb 3 = [] := by decide
  have hg4 : winnerMoveGroups effScenarioDb 4 = [] := by decide
  have h1 : efficiencyOf effScenarioDb 1 = some 3 := by
    simp only [efficiencyOf, hg1]
    norm_num
  have h2 : efficiencyOf effScenarioDb 2 = some 5 := by
    simp only [efficiencyOf, hg2]
    norm_num
  have h3 : efficiencyOf effScenarioDb 3 = none := by
    simp [efficiencyOf, hg3]
  have h4 : efficiencyOf effScenarioDb 4 = none := by
    simp [efficiencyOf, hg4]
  have hw1 : winsCount effScenarioDb 1 = 1 := by decide
  have hw2 : winsCount effScenarioDb 2 = 1 := by decide
  have hgc1 : gamesCount effScenarioDb 1 = 1 := by decide
  have hgc2 : gamesCount effScenarioDb 2 = 1 := by decide
  have heff : effRows effScenarioDb = [⟨1, 3, 1, 1⟩, ⟨2, 5, 1, 1⟩] := by
    rw [effRows, hAll]
    norm_num [h1, h2, h3, h4, hw1, hw2, hgc1, hgc2, List.filterMap_cons]
  have hle : effLe effScenarioDb ⟨1, 3, 1, 1⟩ ⟨2, 5, 1, 1⟩ = true := by
    rw [effLe_iff]
    exact Or.inl (by norm_num)
  unfold leaderboard
  rw [if_neg (by decide), if_pos rfl, heff]
  simp [List.insertionSort, List.orderedInsert, hle]

/-- Claim C9: Leaderboard("efficiency") returns at most 3 entries, sorted
by efficiency ascending with ties broken by wins descending then user id
ascending; every entry has a defined non-zero efficiency (users with zero
or undefined efficiency are excluded); smaller efficiency ranks strictly
earlier; and in the concrete scenario the user who won in 3 moves ranks
above the user who won in 5. -/
theorem leaderboard_efficiency_ranking :
    (∀ db : DB, ∀ out, leaderboard db "efficiency" = LBResult.ranked out →
      out.length ≤ 3 ∧
      List.Sorted (fun a b => effLe db a b = true) out ∧
      (∀ e ∈ out, ∃ v, efficiencyOf db e.user_id = some v ∧ v ≠ 0 ∧ e.value = v ∧
        e.wins = winsCount db e.user_id ∧ e.games = gamesCount db e.user_id) ∧
      (∀ a ∈ out, ∀ b2 ∈ out, a.value < b2.value → [a, b2].Sublist out)) ∧
    leaderboard effScenarioDb "efficiency" =
      LBResult.ranked [⟨1, 3, 1, 1⟩, ⟨2, 5, 1, 1⟩] := by
  constructor
  · intro db out h
    unfold leaderboard at h
    rw [if_neg (by decide), if_pos rfl] at h
    obtain rfl := (LBResult.ranked.inj h).symm
    letI : IsTotal LeaderBoard (fun a b => effLe db a b = true) := ⟨effLe_total db⟩
    letI : IsTrans LeaderBoard (fun a b => effLe db a b = true) := ⟨effLe_trans db⟩
    have hsorted : List.Sorted (fun a b => effLe db a b = true)
        ((effRows db).insertionSort (fun a b => effLe db a b = true)) :=
      List.sorted_insertionSort _ (effRows db)
    have hsorted3 : List.Sorted (fun a b => effLe db a b = true)
        (((effRows db).insertionSort (fun a b => effLe db a b = true)).take 3) :=
      List.Pairwise.sublist (List.take_sublist 3 _) hsorted
    refine ⟨List.length_take_le 3 _, hsorted3, ?_, ?_⟩
    · intro e he
      have hmem : e ∈ effRows db := by
        have := List.mem_of_mem_take he
        rwa [List.mem_insertionSort] at this
      unfold effRows at hmem
      obtain ⟨u, _, hu⟩ := List.mem_filterMap.mp hmem
      cases hv : efficiencyOf db u with
      | none => rw [hv] at hu; cases hu
      | some v =>
        rw [hv] at hu
        have hu2 : (if v ≠ 0 then
            some (⟨u, v, winsCount db u, gamesCount db u⟩ : LeaderBoard)
          else none) = some e := hu
        by_cases hz : v ≠ 0
        · rw [if_pos hz] at hu2
          obtain rfl := Option.some.inj hu2
          exact ⟨v, hv, hz, rfl, rfl, rfl⟩
        · rw [if_neg hz] at hu2
          cases hu2
    · intro a ha b2 hb2 hlt
      have hne : a ≠ b2 := by
        intro he
        rw [he] at hlt
        exact lt_irrefl _ hlt
      rcases sublist_pair_of_mem ha hb2 hne with hgood | hbad
      · exact hgood
      · exfalso
        have hpair := List.Pairwise.sublist hbad hsorted3
        have hba : effLe db b2 a = true := (List.pairwise_cons.mp hpair).1 a (by simp)
        rw [effLe_iff] at hba
        rcases hba with hv | ⟨hv, _⟩
        · exact absurd (lt_trans hlt hv) (lt_irrefl _)
        · rw [hv] at hlt
          exact lt_irrefl _ hlt
  · exact effScenario_eval

/-- Witness for C9 on the concrete scenario store. -/
theorem leaderboard_efficiency_ranking_witness :
    ([(⟨1, 3, 1, 1⟩ : LeaderBoard), ⟨2, 5, 1, 1⟩].length ≤ 3 ∧
      List.Sorted (fun a b => effLe effScenarioDb a b = true)
        [(⟨1, 3, 1, 1⟩ : LeaderBoard), ⟨2, 5, 1, 1⟩] ∧
      (∀ e ∈ [(⟨1, 3, 1, 1⟩ : LeaderBoard), ⟨2, 5, 1, 1⟩],
        ∃ v, efficiencyOf effScenarioDb e.user_id = some v ∧ v ≠ 0 ∧ e.value = v ∧
          e.wins = winsCount effScenarioDb e.user_id ∧
          e.games = gamesCount effScenarioDb e.user_id) ∧
      (∀ a ∈ [(⟨1, 3, 1, 1⟩ : LeaderBoard), ⟨2, 5, 1, 1⟩],
        ∀ b2 ∈ [(⟨1, 3, 1, 1⟩ : LeaderBoard), ⟨2, 5, 1, 1⟩], a.value < b2.value →
          [a, b2].Sublist [(⟨1, 3, 1, 1⟩ : LeaderBoard), ⟨2, 5, 1, 1⟩])) :=
  leaderboard_efficiency_ranking.1 effScenarioDb
    [⟨1, 3, 1, 1⟩, ⟨2, 5, 1, 1⟩] effScenario_eval

end GridGame
